import Mathlib

/-!
Verification of the flow-canonicalization and duplicate-remediation tools
(`missingflowhunter.py`, `find_duplicates.py`).

The Python code is shallowly embedded: strings become `String`/`List Char`,
Python string methods become the executable `py*` functions below, Python
exceptions become `Except PyErr`, and external processes (ovn-sbctl,
ovs-ofctl, ...) become explicit parameters carrying the text they would
return.  Python string methods treat only ASCII text here, which is the
alphabet every input of these tools is drawn from.
-/

namespace FlowHunter

/-- The Python exceptions that can escape the embedded functions. -/
inductive PyErr where
  | keyError
  | indexError
  | nameError
  | assertionError
  | portNotFound
  | manyPortsFound
  deriving DecidableEq, Repr

/-! ### Python string primitives -/

/-- ASCII whitespace, as stripped by Python `str.rstrip()` / `str.strip()`. -/
def pyIsSpace (c : Char) : Bool :=
  c == ' ' || c == '\t' || c == '\n' || c == '\r' || c == '\x0b' || c == '\x0c'

/-- Python `str.rstrip()` (no argument): drop trailing whitespace. -/
def pyRstrip (s : List Char) : List Char :=
  (s.reverse.dropWhile pyIsSpace).reverse

/-- Python `str.lstrip()` (no argument): drop leading whitespace. -/
def pyLstrip (s : List Char) : List Char :=
  s.dropWhile pyIsSpace

/-- Python `str.strip()` (no argument). -/
def pyStrip (s : List Char) : List Char :=
  pyLstrip (pyRstrip s)

/-- Python `pat in s`: `pat` occurs contiguously in `s`. -/
def occursIn (pat : List Char) : List Char → Bool
  | [] => pat.isEmpty
  | c :: rest => pat.isPrefixOf (c :: rest) || occursIn pat rest

/-- The scan of Python `str.replace`, structurally recursive on a fuel
bound for the number of consumed characters (the fuel never runs out when
it starts at the input's length, since every step consumes at least one
character). -/
def pyReplaceAux (pat rep : List Char) : Nat → List Char → List Char
  | _, [] => []
  | 0, s => s
  | fuel + 1, c :: rest =>
    if !pat.isEmpty && pat.isPrefixOf (c :: rest) then
      rep ++ pyReplaceAux pat rep fuel (rest.drop (pat.length - 1))
    else
      c :: pyReplaceAux pat rep fuel rest

/-- Python `s.replace(pat, rep)` for a nonempty `pat`: replace every
non-overlapping occurrence, scanning left to right.  (All call sites in the
sources use a nonempty pattern; an empty pattern is treated as a no-op.) -/
def pyReplace (pat rep s : List Char) : List Char :=
  pyReplaceAux pat rep s.length s

/-- The scan of Python `str.split` for a string separator, structurally
recursive on the same fuel bound as `pyReplaceAux`. -/
def pySplitAux (pat : List Char) : Nat → List Char → List (List Char)
  | _, [] => [[]]
  | 0, s => [s]
  | fuel + 1, c :: rest =>
    if !pat.isEmpty && pat.isPrefixOf (c :: rest) then
      [] :: pySplitAux pat fuel (rest.drop (pat.length - 1))
    else
      (pySplitAux pat fuel rest).modifyHead (List.cons c)

/-- Python `s.split(pat)` for a nonempty string separator `pat`. -/
def pySplit (pat s : List Char) : List (List Char) :=
  pySplitAux pat s.length s

/-- The scan of Python `str.split` with `maxsplit=1`, structurally
recursive on the same fuel bound. -/
def pySplitOnceAux (pat : List Char) : Nat → List Char → Option (List Char × List Char)
  | _, [] => none
  | 0, _ => none
  | fuel + 1, c :: rest =>
    if !pat.isEmpty && pat.isPrefixOf (c :: rest) then
      some ([], rest.drop (pat.length - 1))
    else
      (pySplitOnceAux pat fuel rest).map (fun pr => (c :: pr.1, pr.2))

/-- Python `s.split(pat, maxsplit=1)[1]`-style splitting: the text before and
after the first occurrence of `pat`, or `none` when `pat` does not occur
(in which case indexing `[1]` raises `IndexError`). -/
def pySplitOnce (pat s : List Char) : Option (List Char × List Char) :=
  pySplitOnceAux pat s.length s

/-! ### Canonicalizers (`missingflowhunter.py`) -/

/-- `extract_flow_from_logline` (missingflowhunter.py, lines 20-42): take the
text after the `flow:` marker of an ovn-controller debug line, delete all
spaces, rename `table_id=` to `table=` and prefix the cookie value with `0x`.
`none` models the `IndexError` raised when the line has no `flow:` marker. -/
def extract_flow_from_logline (line : String) : Option String :=
  ((pySplit "flow:".data (pyRstrip line.data)).get? 1).map fun flow_out =>
    String.mk (pyReplace "cookie=".data "cookie=0x".data
      (pyReplace "table_id=".data "table=".data
        (pyReplace " ".data "".data flow_out)))

/-- The volatile-field test of `extract_flow_from_ofctl`: the Python code
drops a comma-token when any of these four strings occurs in it. -/
def isVolatile (kv : List Char) : Bool :=
  occursIn "duration".data kv || occursIn "n_packets".data kv ||
  occursIn "n_bytes".data kv || occursIn "idle_age".data kv

/-- `extract_flow_from_ofctl` (missingflowhunter.py, lines 45-69): rstrip the
line, turn every space into a comma, split on commas, drop empty tokens and
tokens mentioning duration/n_packets/n_bytes/idle_age, and rejoin with
commas. -/
def extract_flow_from_ofctl (line : String) : String :=
  let kv_pairs :=
    ((pyReplace " ".data ",".data (pyRstrip line.data)).splitOn ',').filter
      (fun kv => !kv.isEmpty && !isVolatile kv)
  String.mk ([','].intercalate kv_pairs)

/-- `extract_flow_from_ovs_logline` (missingflowhunter.py, lines 72-90): take
the text after the first ` ADD ` marker, split it on single spaces, rewrite
the `table:`/`cookie:` tokens to `key=value` form and join cookie, table,
match and actions with commas.  `none` models the `IndexError` raised when
the marker or one of the positional tokens is missing. -/
def extract_flow_from_ovs_logline (line : String) : Option String := do
  let (_, flow_line) ← pySplitOnce " ADD ".data line.data
  let tokens := flow_line.splitOn ' '
  let t0 ← tokens.get? 0
  let t1 ← tokens.get? 1
  let t2 ← tokens.get? 2
  let t3 ← tokens.get? 3
  let table := pyReplace ":".data "=".data t0
  let cookie := pyReplace ":".data "=".data t2
  return String.mk ([','].intercalate [cookie, table, t1, t3])

/-! ### Reconciliation loop (`missingflowhunter.py`, lines 93-145)

The tailed log file is embedded as its full text plus a read position; the
`ovs-ofctl dump-flows` collaborator is embedded as the list of lines it
would print. -/

/-- The expected-set add event: `expected_flows.add(x)` (line 143). -/
def processAdd (expected_flows : Finset String) (x : String) : Finset String :=
  insert x expected_flows

/-- The expected-set remove event: `expected_flows.remove(x)` (line 145).
Python `set.remove` raises `KeyError` when `x` is absent. -/
def processRemove (expected_flows : Finset String) (x : String) :
    Except PyErr (Finset String) :=
  if x ∈ expected_flows then .ok (expected_flows.erase x)
  else .error .keyError

/-- `check_ofctl` (lines 93-106) on the text the flow dump returned: raise
`MissingFlows` (carried on the error side) when some expected flow is not
among the canonicalized dump lines. -/
def check_ofctl (dumpLines : List String) (expected_flows : Finset String) :
    Except (Finset String) Unit :=
  let ofctl_flows : Finset String :=
    dumpLines.foldl (fun s line => insert (extract_flow_from_ofctl line) s) ∅
  let missing_flows := expected_flows \ ofctl_flows
  if missing_flows = ∅ then .ok () else .error missing_flows

/-- Python `file.readline()` on a file whose full contents are `content`,
reading at offset `pos`: returns the text up to and including the next
newline — or up to end-of-file when no newline follows — and the advanced
offset. -/
def pyReadline (content : List Char) (pos : Nat) : List Char × Nat :=
  let rest := content.drop pos
  let n := rest.findIdx (fun c => c == '\n')
  if n < rest.length then (rest.take (n + 1), pos + n + 1)
  else (rest, pos + rest.length)

/-- One iteration of `loop` (lines 130-145) over the ovn-controller log:
read a line at `pos`; on an empty or newline-less line just keep the new
offset (the Python code sleeps and continues); otherwise run the diff
trigger, the add event and the remove event.  `MissingFlows` from
`check_ofctl` is caught (`except MissingFlows: pass`); the `KeyError` of a
remove for an absent flow and the `IndexError` of a marker-less `flow:`
line are uncaught and escape. -/
def loopStep (dumpLines : List String) (content : String) (pos : Nat)
    (expected_flows : Finset String) : Except PyErr (Nat × Finset String) := do
  let r := pyReadline content.data pos
  let ovn_line := r.1
  if ovn_line.isEmpty || !(ovn_line.getLast? == some '\n') then
    return (r.2, expected_flows)
  else
    -- line 136: the Diffing trigger only prints / raises-and-catches.
    let _diag :=
      if occursIn "ofctrl_put not needed".data ovn_line && expected_flows.card ≠ 0
      then (check_ofctl dumpLines expected_flows).isOk else true
    let exp1 ←
      if occursIn "ofctrl_add_flow".data ovn_line &&
         occursIn "table_id=20".data ovn_line then
        match extract_flow_from_logline (String.mk ovn_line) with
        | some f => Except.ok (processAdd expected_flows f)
        | none => Except.error PyErr.indexError
      else Except.ok expected_flows
    let exp2 ←
      if occursIn "removing installed flow".data ovn_line &&
         occursIn "table_id=20".data ovn_line then
        match extract_flow_from_logline (String.mk ovn_line) with
        | some f => processRemove exp1 f
        | none => Except.error PyErr.indexError
      else Except.ok exp1
    return (r.2, exp2)

/-! ### Duplicate detector (`find_duplicates.py`, lines 86-112)

`ovn-sbctl lflow-list` is embedded as the text `stdout` it printed. -/

/-- Match a literal at the head of the input, returning the rest. -/
def chompLit (lit s : List Char) : Option (List Char) :=
  if lit.isPrefixOf s then some (s.drop lit.length) else none

/-- Match `\d+` (one or more ASCII digits), returning the rest. -/
def chompDigits1 (s : List Char) : Option (List Char) :=
  let d := s.takeWhile (fun c => c.isDigit)
  if d.isEmpty then none else some (s.drop d.length)

/-- Match `[ ]+` (one or more spaces), returning the rest. -/
def chompSpaces1 (s : List Char) : Option (List Char) :=
  let d := s.takeWhile (fun c => c == ' ')
  if d.isEmpty then none else some (s.drop d.length)

/-- `RE_LRP.match(line)` (find_duplicates.py, lines 16-17): the anchored
pattern `^[ ]+table=\d+\(lr_in_arp_resolve  \), priority=\d+  ,
match=\(outport == "lrp-.*`.  Every greedy repetition here is followed by a
character it cannot match, so the backtracking regex accepts exactly when
this sequential parse does. -/
def matchRE_LRP (line : String) : Bool :=
  (do
    let s1 ← chompSpaces1 line.data
    let s2 ← chompLit "table=".data s1
    let s3 ← chompDigits1 s2
    let s4 ← chompLit "(lr_in_arp_resolve  ), priority=".data s3
    let s5 ← chompDigits1 s4
    let _ ← chompLit "  , match=(outport == \"lrp-".data s5
    pure ()).isSome

/-- The grouping key of line 108: `','.join(line.split(',')[0:3]).lstrip()`. -/
def flowKey (line : String) : String :=
  String.mk (pyLstrip ([','].intercalate ((line.data.splitOn ',').take 3)))

/-- `flows[flow] += [line.strip()]` on the insertion-ordered dict of
line 102, embedded as an association list: append to the entry of the key
if present, otherwise append a new entry at the end. -/
def addFlow (acc : List (String × List String)) (k v : String) :
    List (String × List String) :=
  if acc.any (fun kv => kv.1 == k) then
    acc.map (fun kv => if kv.1 == k then (kv.1, kv.2 ++ [v]) else kv)
  else
    acc ++ [(k, [v])]

/-- The body of the filtering loop of lines 103-109 for one listing line:
lines rejected by `RE_LRP` are skipped, matching lines are grouped under
their `flowKey` with their stripped text. -/
def buildStep (acc : List (String × List String)) (line : String) :
    List (String × List String) :=
  if matchRE_LRP line then
    addFlow acc (flowKey line) (String.mk (pyStrip line.data))
  else acc

/-- The filtering loop of lines 103-109 over the listing's lines. -/
def buildFlows (lines : List String) : List (String × List String) :=
  lines.foldl buildStep []

/-- `find_lflow_dups` (lines 86-112) on the text that
`ovn-sbctl lflow-list <datapath>` printed: skip the `Datapath:` header line,
group the `lr_in_arp_resolve` lines by their first three comma-separated
fields, and keep only the groups with more than one member. -/
def find_lflow_dups (stdout : String) : List (String × List String) :=
  (buildFlows (((stdout.data.splitOn '\n').map String.mk).drop 1)).filter
    (fun kv => kv.2.length > 1)

/-! ### Port index (`find_duplicates.py`, lines 115-168)

`ovn-nbctl list logical-switch-port` is embedded as the text it printed. -/

/-- One endpoint record, the dict built by `parse_port`: each field is
present only when a matching line was seen (`none` models a missing dict
key, whose access raises `KeyError`).  The `uuid.UUID` value is kept as its
trimmed source text. -/
structure Port where
  _uuid : Option String := none
  addresses : Option String := none
  up : Option Bool := none
  deriving DecidableEq, Repr

/-- `parse_port` (lines 115-127).  `line.split(':', maxsplit=1)[1]` raises
`IndexError` when the line has no colon. -/
def parse_port (lines : List String) : Except PyErr Port :=
  lines.foldlM
    (fun (port : Port) line =>
      if "_uuid".data.isPrefixOf line.data then
        match pySplitOnce ":".data line.data with
        | some pr => Except.ok { port with _uuid := some (String.mk (pyStrip pr.2)) }
        | none => Except.error PyErr.indexError
      else if "addresses".data.isPrefixOf line.data then
        match pySplitOnce ":".data line.data with
        | some pr => Except.ok { port with addresses := some (String.mk (pyStrip pr.2)) }
        | none => Except.error PyErr.indexError
      else if "up".data.isPrefixOf line.data then
        match pySplitOnce ":".data line.data with
        | some pr => Except.ok { port with up := some (pyStrip pr.2 == "true".data) }
        | none => Except.error PyErr.indexError
      else Except.ok port)
    {}

/-- `get_list_logical_switch_port` (lines 130-146) on the text the listing
command printed: blank lines flush the current buffer through `parse_port`
(so two consecutive blank lines append an empty record); a trailing
unflushed buffer is dropped. -/
def get_list_logical_switch_port (stdout : String) : Except PyErr (List Port) := do
  let st ← (stdout.data.splitOn '\n').foldlM
    (fun (st : List Port × List String) lineChars => do
      if lineChars.isEmpty then
        let p ← parse_port st.2
        Except.ok (st.1 ++ [p], [])
      else
        Except.ok (st.1, st.2 ++ [String.mk lineChars]))
    ([], [])
  return st.1

/-- The tail of `RE_IP_ADDR` after the first capture group:
`\), action=\(eth.dst = ([a-f0-9:]{17});`.  Returns the captured
hardware address. -/
def reIpTail (s : List Char) : Option (List Char) :=
  if "), action=(eth.dst = ".data.isPrefixOf s then
    let r := s.drop "), action=(eth.dst = ".data.length
    let mac := r.take 17
    if mac.length == 17 && mac.all (fun c => c == ':' ||
         ('a' ≤ c && c ≤ 'f') || ('0' ≤ c && c ≤ '9')) &&
       (r.drop 17).head? == some ';' then
      some mac
    else none
  else none

/-- The greedy first capture group `(.*)` of `RE_IP_ADDR`: prefer the
longest group, i.e. the latest position at which the tail matches.
`acc` holds the reversed characters consumed into the group so far. -/
def reIpGroup (acc : List Char) : List Char → Option (List Char × List Char)
  | [] => (reIpTail []).map (fun mac => (acc.reverse, mac))
  | c :: rest =>
    (reIpGroup (c :: acc) rest).orElse
      (fun _ => (reIpTail (c :: rest)).map (fun mac => (acc.reverse, mac)))

/-- The leading greedy `.*` of `RE_IP_ADDR` followed by the literal
` reg0 == `: prefer the latest occurrence whose remainder matches. -/
def reIpScan : List Char → Option (List Char × List Char)
  | [] => none
  | c :: rest =>
    (reIpScan rest).orElse
      (fun _ =>
        if " reg0 == ".data.isPrefixOf (c :: rest) then
          reIpGroup [] ((c :: rest).drop " reg0 == ".data.length)
        else none)

/-- `RE_IP_ADDR.match(flow)` (find_duplicates.py, line 19): the backtracking
match of `.* reg0 == (.*)\), action=\(eth.dst = ([a-f0-9:]{17});`, returning
`(ip address, hardware address)` — `(result.group(1), result.group(2))`. -/
def matchRE_IP_ADDR (flow : String) : Option (String × String) :=
  (reIpScan flow.data).map (fun pr => (String.mk pr.1, String.mk pr.2))

/-- Python `list(filter(f, l))` where the predicate may raise: the predicate
is evaluated on every element, left to right, and its first exception
escapes. -/
def pyFilter (f : α → Except PyErr Bool) : List α → Except PyErr (List α)
  | [] => Except.ok []
  | a :: as => do
    let b ← f a
    let rest ← pyFilter f as
    return if b then a :: rest else rest

/-- The filter predicate of line 160: `mac_addr in p['addresses'] and
ip_addr in p['addresses']`; accessing a missing `addresses` key raises
`KeyError`. -/
def addrPred (ip_addr mac_addr : String) (p : Port) : Except PyErr Bool :=
  match p.addresses with
  | none => Except.error PyErr.keyError
  | some ad => Except.ok (occursIn mac_addr.data ad.data && occursIn ip_addr.data ad.data)

/-- `get_port_uuid` (lines 149-168) against an already-fetched port list:
extract the `(ip, mac)` pair (a failed match fails the `assert`), filter the
ports whose `addresses` text contains both, and return the unique match —
`PortNotFound` on zero matches, `ManyPortsFound` on several. -/
def get_port_uuid (ports : List Port) (flow : String) : Except PyErr Port := do
  match matchRE_IP_ADDR flow with
  | none => Except.error PyErr.assertionError
  | some pr =>
    let ports_found ← pyFilter (addrPred pr.1 pr.2) ports
    match ports_found with
    | [res] => Except.ok res
    | [] => Except.error PyErr.portNotFound
    | _ => Except.error PyErr.manyPortsFound

/-! ### Remediation engine (`find_duplicates.py`, lines 171-208)

`delete_port` runs `ovn-nbctl lsp-del <uuid>`; the external command is
embedded as `exec`, mapping the uuid argument to the exit status the
subprocess would return.  Each embedded result carries the list of delete
commands actually issued. -/

/-- `delete_port` (lines 171-185): issue the delete subprocess unless
`dry_run` is set (in which case the Python function only prints the command
and returns `None`).  Returns the issued commands' uuid arguments and the
`returncode` of the completed process, when there is one. -/
def delete_port (exec : String → Int) (port_uuid : String) (dry_run : Bool) :
    List String × Option Int :=
  if !dry_run then ([port_uuid], some (exec port_uuid))
  else ([], none)

/-- The name `port_uuid` read at line 197 (`delete_port(port_uuid, dry_run)`)
is bound nowhere in `delete_duplicates` nor at module scope, so Python name
resolution finds nothing: evaluating the argument raises `NameError`. -/
def port_uuid_binding : Option String := none

/-- The body of the inner loop of `delete_duplicates` (lines 191-207) for a
single flow, threading the issued delete commands and the accumulated
failures.  `PortNotFound` is caught (printing `E`) and processing continues;
every other exception — including the `NameError` of the unbound
`port_uuid` on the not-up branch — escapes with the state reached so far. -/
def ddFlow (exec : String → Int) (ports : List Port) (dry_run : Bool)
    (st : List String × List (String × Int)) (flow : String) :
    Except (List String × PyErr) (List String × List (String × Int)) :=
  match get_port_uuid ports flow with
  | Except.error PyErr.portNotFound => Except.ok st
  | Except.error e => Except.error (st.1, e)
  | Except.ok port =>
    match port.up with
    | none => Except.error (st.1, PyErr.keyError)
    | some true => Except.ok st
    | some false =>
      match port_uuid_binding with
      | none => Except.error (st.1, PyErr.nameError)
      | some u =>
        let r := delete_port exec u dry_run
        let calls := st.1 ++ r.1
        if dry_run then Except.ok (calls, st.2)
        else
          match r.2 with
          | some rc =>
            if rc == 0 then Except.ok (calls, st.2)
            else Except.ok (calls, st.2 ++ [(u, rc)])
          | none => Except.ok (calls, st.2)

/-- `delete_duplicates` (lines 188-208): run `ddFlow` over every flow of
every duplicate group in order.  Returns the delete commands issued and
either the accumulated failure list or the exception that aborted the
batch. -/
def delete_duplicates (exec : String → Int) (ports : List Port)
    (duplicates : List (String × List String)) (dry_run : Bool) :
    List String × Except PyErr (List (String × Int)) :=
  match duplicates.foldlM
      (fun st kv => kv.2.foldlM (ddFlow exec ports dry_run) st)
      (([], []) : List String × List (String × Int)) with
  | Except.ok st => (st.1, Except.ok st.2)
  | Except.error pr => (pr.1, Except.error pr.2)

/-! ### Statement material

Definitions used only to state the claims: side-condition predicates, the
three documented source-format renderings of one logical rule, its
canonical form, and the concrete endpoints and rules of the end-to-end
scenarios. -/

/-- No space character occurs in `s`. -/
def noSpace (s : List Char) : Bool := s.all (fun c => !(c == ' '))

/-- No comma occurs in `s`. -/
def noComma (s : List Char) : Bool := s.all (fun c => !(c == ','))

/-- No colon occurs in `s`. -/
def noColon (s : List Char) : Bool := s.all (fun c => !(c == ':'))

/-- The only whitespace character occurring in `s` is the plain space. -/
def spaceOnlyWs (s : List Char) : Bool := s.all (fun c => !pyIsSpace c || c == ' ')

/-- A controller debug-log line carrying the rule
`(cookie c, table t, priority p, match m, actions a)`, shaped as in the
`extract_flow_from_logline` docstring: a prefix ending in
`ofctrl_add_flow ` followed by `flow: cookie=..., table_id=..., ...`. -/
def renderLog (pre c t p m a : String) : String :=
  pre ++ "flow: cookie=" ++ c ++ ", table_id=" ++ t ++ ", priority=" ++ p ++
    ", " ++ m ++ ", actions=" ++ a

/-- A live `ovs-ofctl` dump line carrying the same rule, shaped as in the
`extract_flow_from_ofctl` docstring, with the volatile duration/n_packets/
n_bytes/idle_age fields interleaved. -/
def renderOfctl (c t p m a dur np nb ia : String) : String :=
  "cookie=0x" ++ c ++ ", duration=" ++ dur ++ ", table=" ++ t ++
    ", n_packets=" ++ np ++ ", n_bytes=" ++ nb ++ ", idle_age=" ++ ia ++
    ", priority=" ++ p ++ "," ++ m ++ " actions=" ++ a

/-- An `OFPT_FLOW_MOD` protocol-log line carrying the same rule, shaped as
in the `extract_flow_from_ovs_logline` docstring: a prefix followed by
` ADD table:... priority=...,<match> cookie:0x... actions=...`. -/
def renderOvs (pre c t p m a : String) : String :=
  pre ++ " ADD table:" ++ t ++ " priority=" ++ p ++ "," ++ m ++
    " cookie:0x" ++ c ++ " actions=" ++ a

/-- The canonical string all three canonicalizers are claimed to agree on:
`cookie=0x<c>,table=<t>,priority=<p>,<m>,actions=<a>`. -/
def canonFlow (c t p m a : String) : List Char :=
  "cookie=0x".data ++ c.data ++ [','] ++ "table=".data ++ t.data ++ [','] ++
    "priority=".data ++ p.data ++ [','] ++ m.data ++ [','] ++
    "actions=".data ++ a.data

/-- The pure matching test of the port lookup on a well-formed record:
the record's `addresses` text contains both the hardware and the IP
address. -/
def addrHas (ip mac : String) (p : Port) : Bool :=
  match p.addresses with
  | none => false
  | some ad => occursIn mac.data ad.data && occursIn ip.data ad.data

/-- The empty record (`{}`) that `parse_port` yields on an empty buffer. -/
def portEmpty : Port := {}

/-- An endpoint listing whose final record block is empty: the text ends
with two consecutive newlines, so the blank-line flush appends `{}`. -/
def listingNoAddr : String :=
  "_uuid : 11111111-1111-1111-1111-111111111111\naddresses : \"aa:bb:cc:dd:ee:01 10.0.0.1\"\nup : true\n\n"

/-- The listing lines that pass the `RE_LRP` filter and share the rule key
`k`, in source order, stripped as the detector stores them. -/
def matchStrips (lines : List String) (k : String) : List String :=
  (lines.filter (fun l => matchRE_LRP l && (flowKey l == k))).map
    (fun l => String.mk (pyStrip l.data))

/-- Append the values `vs` to the (at most one) group entry for key `k`,
creating the entry when absent and `vs` is nonempty — the shape taken by
the `k`-entries of the detector's accumulator. -/
def joinEntry (k : String) :
    List (String × List String) → List String → List (String × List String)
  | [], vs => if vs.isEmpty then [] else [(k, vs)]
  | e :: es, vs => (e.1, e.2 ++ vs) :: es

/-- A listing line in the filtered table/stage whose action resolves the
match to `aa:bb:cc:dd:ee:01`. -/
def lflowLine1 : String :=
  "  table=20(lr_in_arp_resolve  ), priority=100  , match=(outport == \"lrp-aaa\" && reg0 == 10.0.0.1), action=(eth.dst = aa:bb:cc:dd:ee:01; next;)"

/-- The same rule key as `lflowLine1` with a conflicting action. -/
def lflowLine2 : String :=
  "  table=20(lr_in_arp_resolve  ), priority=100  , match=(outport == \"lrp-aaa\" && reg0 == 10.0.0.1), action=(eth.dst = aa:bb:cc:dd:ee:02; next;)"

/-- An `lflow-list` output: the datapath header followed by the two
conflicting lines. -/
def lflowStdout : String :=
  "Datapath: \"neutron-r1\"\n" ++ lflowLine1 ++ "\n" ++ lflowLine2 ++ "\n"

/-- The `ovs-ofctl` dump line documented in `extract_flow_from_ofctl`. -/
def ofctlDocLine : String :=
  "cookie=0x33d9a01c, duration=2962.254s, table=20, n_packets=0, n_bytes=0, idle_age=2962, priority=100,reg0=0xac10005b,reg15=0x3,metadata=0x144 actions=set_field:fa:16:3e:5b:d3:19->eth_dst,resubmit(,21)"

/-- Scenario endpoint that is administratively up. -/
def portUp : Port :=
  { _uuid := some "11111111-1111-1111-1111-111111111111",
    addresses := some "\"aa:bb:cc:dd:ee:01 10.0.0.1\"",
    up := some true }

/-- Scenario endpoint that is administratively down. -/
def portDown : Port :=
  { _uuid := some "22222222-2222-2222-2222-222222222222",
    addresses := some "\"aa:bb:cc:dd:ee:02 10.0.0.2\"",
    up := some false }

/-- A duplicate-group rule whose action resolves to `portUp`. -/
def flowToUp : String :=
  "table=20(lr_in_arp_resolve  ), priority=100  , match=(outport == \"lrp-aaa\" && reg0 == 10.0.0.1), action=(eth.dst = aa:bb:cc:dd:ee:01; next;)"

/-- A duplicate-group rule whose action resolves to `portDown`. -/
def flowToDown : String :=
  "table=20(lr_in_arp_resolve  ), priority=100  , match=(outport == \"lrp-aaa\" && reg0 == 10.0.0.2), action=(eth.dst = aa:bb:cc:dd:ee:02; next;)"

/-- A duplicate-group rule whose action pair matches no endpoint. -/
def flowToNowhere : String :=
  "table=20(lr_in_arp_resolve  ), priority=100  , match=(outport == \"lrp-aaa\" && reg0 == 10.9.9.9), action=(eth.dst = aa:bb:cc:dd:ee:09; next;)"

/-! ### Toolkit lemmas about the Python string primitives -/

theorem pyReplaceAux_fuel (pat rep : List Char) :
    ∀ (n : Nat) (s : List Char) (f1 f2 : Nat), s.length ≤ n →
      s.length ≤ f1 → s.length ≤ f2 →
      pyReplaceAux pat rep f1 s = pyReplaceAux pat rep f2 s := by
  intro n
  induction n with
  | zero =>
    intro s f1 f2 hn h1 h2
    cases s with
    | nil => cases f1 <;> cases f2 <;> rfl
    | cons c rest => simp at hn
  | succ n ih =>
    intro s f1 f2 hn h1 h2
    cases s with
    | nil => cases f1 <;> cases f2 <;> rfl
    | cons c rest =>
      simp only [List.length_cons] at hn h1 h2
      cases f1 with
      | zero => omega
      | succ g1 =>
        cases f2 with
        | zero => omega
        | succ g2 =>
          simp only [pyReplaceAux]
          by_cases hg : (!pat.isEmpty && pat.isPrefixOf (c :: rest)) = true
          · rw [if_pos hg, if_pos hg]
            have hd := List.length_drop (pat.length - 1) rest
            rw [ih (rest.drop (pat.length - 1)) g1 g2 (by omega) (by omega)
              (by omega)]
          · rw [if_neg hg, if_neg hg]
            rw [ih rest g1 g2 (by omega) (by omega) (by omega)]

theorem pySplitAux_fuel (pat : List Char) :
    ∀ (n : Nat) (s : List Char) (f1 f2 : Nat), s.length ≤ n →
      s.length ≤ f1 → s.length ≤ f2 →
      pySplitAux pat f1 s = pySplitAux pat f2 s := by
  intro n
  induction n with
  | zero =>
    intro s f1 f2 hn h1 h2
    cases s with
    | nil => cases f1 <;> cases f2 <;> rfl
    | cons c rest => simp at hn
  | succ n ih =>
    intro s f1 f2 hn h1 h2
    cases s with
    | nil => cases f1 <;> cases f2 <;> rfl
    | cons c rest =>
      simp only [List.length_cons] at hn h1 h2
      cases f1 with
      | zero => omega
      | succ g1 =>
        cases f2 with
        | zero => omega
        | succ g2 =>
          simp only [pySplitAux]
          by_cases hg : (!pat.isEmpty && pat.isPrefixOf (c :: rest)) = true
          · rw [if_pos hg, if_pos hg]
            have hd := List.length_drop (pat.length - 1) rest
            rw [ih (rest.drop (pat.length - 1)) g1 g2 (by omega) (by omega)
              (by omega)]
          · rw [if_neg hg, if_neg hg]
            rw [ih rest g1 g2 (by omega) (by omega) (by omega)]

theorem pySplitOnceAux_fuel (pat : List Char) :
    ∀ (n : Nat) (s : List Char) (f1 f2 : Nat), s.length ≤ n →
      s.length ≤ f1 → s.length ≤ f2 →
      pySplitOnceAux pat f1 s = pySplitOnceAux pat f2 s := by
  intro n
  induction n with
  | zero =>
    intro s f1 f2 hn h1 h2
    cases s with
    | nil => cases f1 <;> cases f2 <;> rfl
    | cons c rest => simp at hn
  | succ n ih =>
    intro s f1 f2 hn h1 h2
    cases s with
    | nil => cases f1 <;> cases f2 <;> rfl
    | cons c rest =>
      simp only [List.length_cons] at hn h1 h2
      cases f1 with
      | zero => omega
      | succ g1 =>
        cases f2 with
        | zero => omega
        | succ g2 =>
          simp only [pySplitOnceAux]
          by_cases hg : (!pat.isEmpty && pat.isPrefixOf (c :: rest)) = true
          · rw [if_pos hg, if_pos hg]
          · rw [if_neg hg, if_neg hg]
            rw [ih rest g1 g2 (by omega) (by omega) (by omega)]

theorem pyReplace_cons (pat rep : List Char) (c : Char) (rest : List Char) :
    pyReplace pat rep (c :: rest) =
      if !pat.isEmpty && pat.isPrefixOf (c :: rest) then
        rep ++ pyReplace pat rep (rest.drop (pat.length - 1))
      else
        c :: pyReplace pat rep rest := by
  unfold pyReplace
  simp only [List.length_cons, pyReplaceAux]
  by_cases hg : (!pat.isEmpty && pat.isPrefixOf (c :: rest)) = true
  · rw [if_pos hg, if_pos hg]
    have hd := List.length_drop (pat.length - 1) rest
    rw [pyReplaceAux_fuel pat rep rest.length (rest.drop (pat.length - 1))
      rest.length (rest.drop (pat.length - 1)).length
      (by omega) (by omega) (by omega)]
  · rw [if_neg hg, if_neg hg]

theorem pySplit_cons (pat : List Char) (c : Char) (rest : List Char) :
    pySplit pat (c :: rest) =
      if !pat.isEmpty && pat.isPrefixOf (c :: rest) then
        [] :: pySplit pat (rest.drop (pat.length - 1))
      else
        (pySplit pat rest).modifyHead (List.cons c) := by
  unfold pySplit
  simp only [List.length_cons, pySplitAux]
  by_cases hg : (!pat.isEmpty && pat.isPrefixOf (c :: rest)) = true
  · rw [if_pos hg, if_pos hg]
    have hd := List.length_drop (pat.length - 1) rest
    rw [pySplitAux_fuel pat rest.length (rest.drop (pat.length - 1))
      rest.length (rest.drop (pat.length - 1)).length
      (by omega) (by omega) (by omega)]
  · rw [if_neg hg, if_neg hg]

theorem pySplitOnce_cons (pat : List Char) (c : Char) (rest : List Char) :
    pySplitOnce pat (c :: rest) =
      if !pat.isEmpty && pat.isPrefixOf (c :: rest) then
        some ([], rest.drop (pat.length - 1))
      else
        (pySplitOnce pat rest).map (fun pr => (c :: pr.1, pr.2)) := by
  unfold pySplitOnce
  simp only [List.length_cons, pySplitOnceAux]

theorem occursIn_of_isPrefix {pat s : List Char} (hne : pat ≠ [])
    (h : pat <+: s) : occursIn pat s = true := by
  cases s with
  | nil => cases hne (List.prefix_nil.mp h)
  | cons c rest =>
    simp only [occursIn, Bool.or_eq_true]
    exact Or.inl (List.isPrefixOf_iff_prefix.mpr h)

theorem occursIn_false_cons {pat : List Char} {c : Char} {rest : List Char}
    (h : occursIn pat (c :: rest) = false) :
    pat.isPrefixOf (c :: rest) = false ∧ occursIn pat rest = false := by
  simpa only [occursIn, Bool.or_eq_false_iff] using h

theorem ne_nil_of_occursIn_false {pat s : List Char}
    (h : occursIn pat s = false) : pat ≠ [] := by
  intro hp
  subst hp
  cases s with
  | nil => simp [occursIn] at h
  | cons c rest => simp [occursIn, List.isPrefixOf] at h

theorem not_isPrefixOf_of_dropLast {pat a b : List Char} (ha : a ≠ [])
    (h : occursIn pat ((a ++ pat).dropLast) = false) :
    pat.isPrefixOf (a ++ (pat ++ b)) = false := by
  have hne : pat ≠ [] := ne_nil_of_occursIn_false h
  by_contra hcon
  have hpre : pat <+: (a ++ pat) ++ b := by
    rw [List.append_assoc]
    exact List.isPrefixOf_iff_prefix.mp (by simpa using hcon)
  have h1 : 1 ≤ a.length := by
    cases a with
    | nil => cases ha rfl
    | cons x xs => simp
  have hlen : pat.length ≤ (a ++ pat).length - 1 := by
    simp only [List.length_append]
    omega
  have htake : pat = ((a ++ pat).dropLast).take pat.length := by
    have h2 : pat = ((a ++ pat) ++ b).take pat.length :=
      List.prefix_iff_eq_take.mp hpre
    rw [List.take_append_of_le_length (by simp only [List.length_append]; omega)] at h2
    rw [List.dropLast_eq_take, List.take_take, min_eq_left hlen]
    exact h2
  have : pat <+: (a ++ pat).dropLast := by
    rw [List.prefix_iff_eq_take]
    exact htake
  have := occursIn_of_isPrefix hne this
  rw [this] at h
  cases h

theorem occursIn_dropLast_tail {pat a : List Char} {c : Char}
    (h : occursIn pat (((c :: a) ++ pat).dropLast) = false) :
    occursIn pat ((a ++ pat).dropLast) = false := by
  have hne : pat ≠ [] := ne_nil_of_occursIn_false h
  have hne2 : a ++ pat ≠ [] := by
    intro hx
    exact hne (List.append_eq_nil.mp hx).2
  rw [List.cons_append, List.dropLast_cons_of_ne_nil hne2] at h
  exact (occursIn_false_cons h).2

theorem isPrefixOf_append_self {pat b : List Char} :
    pat.isPrefixOf (pat ++ b) = true :=
  List.isPrefixOf_iff_prefix.mpr (List.prefix_append pat b)

theorem pyReplace_eq_self {pat rep s : List Char}
    (h : occursIn pat s = false) : pyReplace pat rep s = s := by
  induction s with
  | nil => rfl
  | cons c rest ih =>
    obtain ⟨h1, h2⟩ := occursIn_false_cons h
    rw [pyReplace_cons, if_neg (by simp [h1])]
    rw [ih h2]

theorem pyReplace_append {pat rep a b : List Char}
    (h : occursIn pat ((a ++ pat).dropLast) = false) :
    pyReplace pat rep (a ++ (pat ++ b)) = a ++ (rep ++ pyReplace pat rep b) := by
  induction a with
  | nil =>
    have hne : pat ≠ [] := ne_nil_of_occursIn_false h
    cases hp : pat with
    | nil => cases hne hp
    | cons q qs =>
      subst hp
      have hpref : (q :: qs).isPrefixOf (q :: (qs ++ b)) = true := by
        have h0 := @isPrefixOf_append_self (q :: qs) b
        rw [List.cons_append] at h0
        exact h0
      simp only [List.nil_append, List.cons_append]
      rw [pyReplace_cons, if_pos (by simp [hpref])]
      simp [List.drop_left]
  | cons c a' ih =>
    have hpre := @not_isPrefixOf_of_dropLast _ _ b (List.cons_ne_nil c a') h
    rw [List.cons_append] at hpre
    rw [List.cons_append, pyReplace_cons, if_neg (by rw [hpre]; simp)]
    rw [ih (occursIn_dropLast_tail h)]
    simp

theorem pySplit_eq_single {pat s : List Char}
    (h : occursIn pat s = false) : pySplit pat s = [s] := by
  induction s with
  | nil => rfl
  | cons c rest ih =>
    obtain ⟨h1, h2⟩ := occursIn_false_cons h
    rw [pySplit_cons, if_neg (by simp [h1])]
    rw [ih h2]
    rfl

theorem pySplit_append {pat a b : List Char}
    (h : occursIn pat ((a ++ pat).dropLast) = false) :
    pySplit pat (a ++ (pat ++ b)) = a :: pySplit pat b := by
  induction a with
  | nil =>
    have hne : pat ≠ [] := ne_nil_of_occursIn_false h
    cases hp : pat with
    | nil => cases hne hp
    | cons q qs =>
      subst hp
      have hpref : (q :: qs).isPrefixOf (q :: (qs ++ b)) = true := by
        have h0 := @isPrefixOf_append_self (q :: qs) b
        rw [List.cons_append] at h0
        exact h0
      simp only [List.nil_append, List.cons_append]
      rw [pySplit_cons, if_pos (by simp [hpref])]
      simp [List.drop_left]
  | cons c a' ih =>
    have hpre := @not_isPrefixOf_of_dropLast _ _ b (List.cons_ne_nil c a') h
    rw [List.cons_append] at hpre
    rw [List.cons_append, pySplit_cons, if_neg (by rw [hpre]; simp)]
    rw [ih (occursIn_dropLast_tail h)]
    rfl

theorem pySplitOnce_append {pat a b : List Char}
    (h : occursIn pat ((a ++ pat).dropLast) = false) :
    pySplitOnce pat (a ++ (pat ++ b)) = some (a, b) := by
  induction a with
  | nil =>
    have hne : pat ≠ [] := ne_nil_of_occursIn_false h
    cases hp : pat with
    | nil => cases hne hp
    | cons q qs =>
      subst hp
      have hpref : (q :: qs).isPrefixOf (q :: (qs ++ b)) = true := by
        have h0 := @isPrefixOf_append_self (q :: qs) b
        rw [List.cons_append] at h0
        exact h0
      simp only [List.nil_append, List.cons_append]
      rw [pySplitOnce_cons, if_pos (by simp [hpref])]
      simp [List.drop_left]
  | cons c a' ih =>
    have hpre := @not_isPrefixOf_of_dropLast _ _ b (List.cons_ne_nil c a') h
    rw [List.cons_append] at hpre
    rw [List.cons_append, pySplitOnce_cons, if_neg (by rw [hpre]; simp)]
    rw [ih (occursIn_dropLast_tail h)]
    rfl

theorem pyReplace_single_char (x y : Char) (s : List Char) :
    pyReplace [x] [y] s = s.map (fun c => if c == x then y else c) := by
  induction s with
  | nil => rfl
  | cons c rest ih =>
    by_cases hc : c = x
    · subst hc
      rw [pyReplace_cons, if_pos (by simp [List.isPrefixOf])]
      simpa using ih
    · rw [pyReplace_cons, if_neg (by simp [List.isPrefixOf]; exact fun h => hc h.symm)]
      simp [hc, ih]

theorem pyReplace_del_char (x : Char) (s : List Char) :
    pyReplace [x] [] s = s.filter (fun c => !(c == x)) := by
  induction s with
  | nil => rfl
  | cons c rest ih =>
    by_cases hc : c = x
    · subst hc
      rw [pyReplace_cons, if_pos (by simp [List.isPrefixOf])]
      simpa using ih
    · rw [pyReplace_cons, if_neg (by simp [List.isPrefixOf]; exact fun h => hc h.symm)]
      simp [hc, ih]

theorem pyRstrip_eq_self_of_all {s : List Char}
    (h : s.all (fun c => !pyIsSpace c) = true) : pyRstrip s = s := by
  unfold pyRstrip
  cases hr : s.reverse with
  | nil => simp [List.dropWhile, ← hr]
  | cons a l =>
    have ha : pyIsSpace a = false := by
      have : a ∈ s := by
        rw [← List.mem_reverse, hr]
        exact List.mem_cons_self a l
      simpa using (List.all_eq_true.mp h) a this
    rw [List.dropWhile_cons, if_neg (by simp [ha]), ← hr, List.reverse_reverse]

theorem pyRstrip_append {s a : List Char} (ha : a ≠ [])
    (hr : pyRstrip a = a) : pyRstrip (s ++ a) = s ++ a := by
  have hd : a.reverse.dropWhile pyIsSpace = a.reverse := by
    have := congrArg List.reverse hr
    unfold pyRstrip at this
    simpa using this
  cases hrev : a.reverse with
  | nil => cases ha (by simpa using congrArg List.reverse hrev)
  | cons c l =>
    have hc : pyIsSpace c = false := by
      rw [hrev, List.dropWhile_cons] at hd
      by_cases hp : pyIsSpace c = true
      · rw [if_pos hp] at hd
        have hle : (List.dropWhile pyIsSpace l).length ≤ l.length := (List.dropWhile_sublist _).length_le
        have := congrArg List.length hd
        simp at this
        omega
      · exact Bool.eq_false_iff.mpr hp
    unfold pyRstrip
    rw [List.reverse_append, hrev, List.cons_append, List.dropWhile_cons, if_neg (by simp [hc]), ← List.cons_append]
    rw [← hrev, ← List.reverse_append, List.reverse_reverse]

theorem filter_eq_self_of_all {p : Char → Bool} {s : List Char}
    (h : s.all p = true) : s.filter p = s :=
  List.filter_eq_self.mpr (List.all_eq_true.mp h)

theorem map_eq_self_of_all {f : Char → Char} {s : List Char}
    (h : ∀ c ∈ s, f c = c) : s.map f = s := by
  rw [List.map_congr_left h]
  exact List.map_id' s

theorem splitOn_char_push {x : Char} {r rest : List Char}
    (h : r.all (fun c => !(c == x)) = true) :
    (r ++ x :: rest).splitOn x = r :: rest.splitOn x := by
  simp only [List.splitOn]
  exact List.splitOnP_first _ r
    (fun c hc => by simpa using (List.all_eq_true.mp h) c hc) x (by simp) rest

theorem splitOn_char_single {x : Char} {r : List Char}
    (h : r.all (fun c => !(c == x)) = true) : r.splitOn x = [r] := by
  simp only [List.splitOn]
  exact List.splitOnP_eq_single _ r
    (fun c hc => by simpa using (List.all_eq_true.mp h) c hc)

theorem intercalate_two (sep a b : List Char) (l : List (List Char)) :
    sep.intercalate (a :: b :: l) = a ++ sep ++ sep.intercalate (b :: l) := by
  simp [List.intercalate, List.intersperse_cons_cons, List.flatten_cons,
    List.append_assoc]

theorem intercalate_one (sep a : List Char) : sep.intercalate [a] = a := by
  simp [List.intercalate]

theorem intercalate_append_ne {sep : List Char} {xs ys : List (List Char)}
    (hxs : xs ≠ []) (hys : ys ≠ []) :
    sep.intercalate (xs ++ ys) = sep.intercalate xs ++ sep ++ sep.intercalate ys := by
  induction xs with
  | nil => cases hxs rfl
  | cons a xs' ih =>
    cases xs' with
    | nil =>
      cases ys with
      | nil => cases hys rfl
      | cons b ys' =>
        rw [List.singleton_append, intercalate_two, intercalate_one]
    | cons a2 xs'' =>
      rw [List.cons_append, List.cons_append, intercalate_two, intercalate_two,
        ← List.cons_append, ih (List.cons_ne_nil a2 xs'')]
      simp [List.append_assoc]

theorem pyReadline_snd (content : List Char) (pos : Nat) :
    (pyReadline content pos).2 = pos + (pyReadline content pos).1.length := by
  unfold pyReadline
  by_cases h : (content.drop pos).findIdx (fun c => c == '\n') < (content.drop pos).length
  · rw [if_pos h]
    simp only [List.length_take]
    omega
  · rw [if_neg h]

/-! ### Claim C7: expected-set add/remove round trip -/

/-- C7, counterexample: when the rule is already in the expected set, an add
event (a no-op on a Python set) followed by a remove event does NOT return
the set to its prior state — the rule is gone. -/
theorem c7_counterexample :
    processRemove (processAdd {"cookie=0x1,table=20"} "cookie=0x1,table=20")
        "cookie=0x1,table=20" ≠
      Except.ok ({"cookie=0x1,table=20"} : Finset String) := by
  have h1 : processAdd ({"cookie=0x1,table=20"} : Finset String)
      "cookie=0x1,table=20" = {"cookie=0x1,table=20"} := by
    simp [processAdd]
  rw [h1, processRemove, if_pos (Finset.mem_singleton_self _)]
  intro h
  have h2 : ({"cookie=0x1,table=20"} : Finset String).erase "cookie=0x1,table=20" =
      {"cookie=0x1,table=20"} := by
    exact Except.ok.inj h
  have h3 : "cookie=0x1,table=20" ∈
      ({"cookie=0x1,table=20"} : Finset String).erase "cookie=0x1,table=20" := by
    rw [h2]
    exact Finset.mem_singleton_self _
  exact (Finset.not_mem_erase _ _) h3

/-- C7 (amended): provided the rule is not already in the expected set, an
add event followed by a remove event for it returns the set to its prior
state; and a remove event for an absent rule raises `KeyError` — an
inconsistency signal, never a silent success. -/
theorem c7_amended (s : Finset String) (x : String) (h : x ∉ s) :
    processRemove (processAdd s x) x = Except.ok s ∧
    processRemove s x = Except.error PyErr.keyError := by
  constructor
  · rw [processAdd, processRemove, if_pos (Finset.mem_insert_self x s),
      Finset.erase_insert h]
  · rw [processRemove, if_neg h]

/-- Witness for `c7_amended` at the empty set and a concrete rule. -/
theorem c7_amended_witness :
    processRemove (processAdd (∅ : Finset String) "cookie=0x1,table=20")
        "cookie=0x1,table=20" = Except.ok ∅ ∧
    processRemove (∅ : Finset String) "cookie=0x1,table=20" =
      Except.error PyErr.keyError :=
  c7_amended ∅ "cookie=0x1,table=20" (Finset.not_mem_empty _)

/-! ### Claim C8: the partial-line retry of the reconciliation loop -/

/-- C8, counterexample: reading the unterminated line `abc` at offset 0
returns to the loop with offset 3, not 0 — Python `readline` has consumed
the partial data, and the loop's continue does not seek back, so the read
is not retried at the same position. -/
theorem c8_counterexample :
    (pyReadline "abc".data 0).1 = "abc".data ∧
    loopStep [] "abc" 0 ∅ = Except.ok (3, (∅ : Finset String)) ∧
    (3 : Nat) ≠ 0 :=
  ⟨rfl, rfl, by decide⟩

/-- C8 (amended): when the read returns an empty line (no new data) the
loop continues at the same position with nothing consumed; when the read
returns a partial line, the loop continues at the position advanced past
the partial data, whose characters are discarded. -/
theorem c8_amended (dumpLines : List String) (content : String) (pos : Nat)
    (exp : Finset String) :
    ((pyReadline content.data pos).1 = [] →
      loopStep dumpLines content pos exp = Except.ok (pos, exp)) ∧
    ((pyReadline content.data pos).1 ≠ [] →
      (pyReadline content.data pos).1.getLast? ≠ some '\n' →
      loopStep dumpLines content pos exp =
        Except.ok (pos + (pyReadline content.data pos).1.length, exp)) := by
  constructor
  · intro h
    have h2 := pyReadline_snd content.data pos
    rw [h] at h2
    simp only [List.length_nil, Nat.add_zero] at h2
    rw [loopStep]
    rw [if_pos (by simp [h])]
    rw [h2]
    rfl
  · intro h1 h2
    have hsnd := pyReadline_snd content.data pos
    rw [loopStep]
    rw [if_pos (by simp [h2])]
    rw [hsnd]
    rfl

/-- Witness for `c8_amended`: an empty read at end-of-file stays at
offset 3; the partial read of `abc` at offset 0 continues at offset 3. -/
theorem c8_amended_witness :
    loopStep [] "abc" 3 ∅ = Except.ok (3, (∅ : Finset String)) ∧
    loopStep [] "abc" 0 ∅ =
      Except.ok (0 + (pyReadline "abc".data 0).1.length, (∅ : Finset String)) :=
  ⟨(c8_amended [] "abc" 3 ∅).1 rfl,
   (c8_amended [] "abc" 0 ∅).2 (by decide) (by decide)⟩

/-! ### Claims C2, C3, C4: the remediation engine -/

theorem ddFlow_calls (exec : String → Int) (ports : List Port) (dry_run : Bool)
    (st : List String × List (String × Int)) (flow : String) :
    (match ddFlow exec ports dry_run st flow with
     | Except.ok st' => st'.1
     | Except.error pr => pr.1) = st.1 := by
  simp only [ddFlow]
  cases h : get_port_uuid ports flow with
  | error e => cases e <;> simp
  | ok port =>
    cases hu : port.up with
    | none => simp [hu]
    | some b => cases b <;> simp [hu, port_uuid_binding]

theorem ddFlows_calls (exec : String → Int) (ports : List Port) (dry_run : Bool)
    (flows : List String) :
    ∀ st : List String × List (String × Int),
    (match flows.foldlM (ddFlow exec ports dry_run) st with
     | Except.ok st' => st'.1
     | Except.error pr => pr.1) = st.1 := by
  induction flows with
  | nil => intro st; rfl
  | cons f fs ih =>
    intro st
    have hstep := ddFlow_calls exec ports dry_run st f
    rw [List.foldlM_cons]
    cases h : ddFlow exec ports dry_run st f with
    | error pr =>
      rw [h] at hstep
      have hstep' : pr.1 = st.1 := by simpa using hstep
      exact hstep'
    | ok st' =>
      rw [h] at hstep
      have hstep' : st'.1 = st.1 := by simpa using hstep
      exact (ih st').trans hstep'

theorem delete_duplicates_calls (exec : String → Int) (ports : List Port)
    (duplicates : List (String × List String)) (dry_run : Bool) :
    (delete_duplicates exec ports duplicates dry_run).1 = [] := by
  rw [delete_duplicates]
  suffices h : ∀ st : List String × List (String × Int),
      (match duplicates.foldlM
          (fun st kv => kv.2.foldlM (ddFlow exec ports dry_run) st) st with
       | Except.ok st' => st'.1
       | Except.error pr => pr.1) = st.1 by
    have h0 := h ([], [])
    cases hr : duplicates.foldlM
        (fun st kv => kv.2.foldlM (ddFlow exec ports dry_run) st)
        (([], []) : List String × List (String × Int)) with
    | ok st' =>
      rw [hr] at h0
      simpa [hr] using h0
    | error pr =>
      rw [hr] at h0
      simpa [hr] using h0
  induction duplicates with
  | nil => intro st; rfl
  | cons kv rest ih =>
    intro st
    have hstep := ddFlows_calls exec ports dry_run kv.2 st
    rw [List.foldlM_cons]
    cases h : kv.2.foldlM (ddFlow exec ports dry_run) st with
    | error pr =>
      rw [h] at hstep
      have hstep' : pr.1 = st.1 := by simpa using hstep
      exact hstep'
    | ok st' =>
      rw [h] at hstep
      have hstep' : st'.1 = st.1 := by simpa using hstep
      exact (ih st').trans hstep'

/-- C3: the remediation engine never issues a delete call for an endpoint
whose administrative state is up, and under the dry-run flag no delete call
is issued for any endpoint: `delete_port` with `dry_run` set issues no
command, and `delete_duplicates` issues none at all — its call site always
raises `NameError` on the unbound `port_uuid` before reaching the up-state
guardable call, so its issued-command trace is empty for every input. -/
theorem c3_no_delete_of_up (exec : String → Int) (ports : List Port)
    (duplicates : List (String × List String)) (dry_run : Bool) :
    (∀ u ∈ (delete_duplicates exec ports duplicates dry_run).1,
      ∀ p ∈ ports, p._uuid = some u → p.up ≠ some true) ∧
    (dry_run = true → (delete_duplicates exec ports duplicates dry_run).1 = []) ∧
    (∀ u, (delete_port exec u true).1 = []) := by
  refine ⟨?_, ?_, ?_⟩
  · intro u hu
    rw [delete_duplicates_calls] at hu
    cases hu
  · intro _
    exact delete_duplicates_calls exec ports duplicates dry_run
  · intro u
    rfl

/-- Witness for `c3_no_delete_of_up` at scenario A's inputs with the
dry-run flag set. -/
theorem c3_no_delete_of_up_witness :
    (delete_duplicates (fun _ => 0) [portUp, portDown]
      [("rulekey", [flowToUp, flowToDown])] true).1 = [] :=
  (c3_no_delete_of_up (fun _ => 0) [portUp, portDown]
    [("rulekey", [flowToUp, flowToDown])] true).2.1 rfl

set_option maxRecDepth 100000 in
/-- C2: evaluating `delete_duplicates` at scenario A — one duplicate group
whose two rules resolve to `portUp` (up) and `portDown` (down), with
`dry_run = False` — issues no delete call and aborts with `NameError`
(the call site `delete_port(port_uuid, dry_run)` reads a name that is bound
nowhere), instead of deleting the down endpoint, reporting one success and
returning an empty failure list. -/
theorem c2_scenario_a_namerror :
    delete_duplicates (fun _ => 0) [portUp, portDown]
      [("rulekey", [flowToUp, flowToDown])] false =
    ([], Except.error PyErr.nameError) := by
  rfl

set_option maxRecDepth 100000 in
/-- C4: evaluating `delete_duplicates` at a group whose first rule resolves
to no endpoint (`PortNotFound`, skipped — processing does continue past it),
whose second rule resolves to the down endpoint (aborting the whole batch
with `NameError`), and whose third rule is consequently never processed: the
engine aborts on a single item's failure and returns no failure list. -/
theorem c4_batch_aborts :
    delete_duplicates (fun _ => 0) [portUp, portDown]
      [("rulekey", [flowToNowhere, flowToDown, flowToUp])] false =
    ([], Except.error PyErr.nameError) := by
  rfl

/-! ### Claims C5 and C10: the port lookup -/

theorem pyFilter_ok_of_wf {ip mac : String} {ports : List Port}
    (h : ∀ p ∈ ports, p.addresses ≠ none) :
    pyFilter (addrPred ip mac) ports =
      Except.ok (ports.filter (addrHas ip mac)) := by
  induction ports with
  | nil => rfl
  | cons q qs ih =>
    have hq := h q (List.mem_cons_self q qs)
    cases ha : q.addresses with
    | none => cases hq ha
    | some ad =>
      have ih' := ih (fun r hr => h r (List.mem_cons_of_mem q hr))
      have hpred : addrPred ip mac q =
          Except.ok (occursIn mac.data ad.data && occursIn ip.data ad.data) := by
        rw [addrPred, ha]
      have haddr : addrHas ip mac q =
          (occursIn mac.data ad.data && occursIn ip.data ad.data) := by
        rw [addrHas, ha]
      rw [pyFilter, hpred, ih', List.filter_cons, haddr]
      cases hb : occursIn mac.data ad.data && occursIn ip.data ad.data with
      | true => rfl
      | false => rfl

theorem pyFilter_keyerror {ip mac : String} {ports : List Port} {p : Port}
    (hp : p ∈ ports) (ha : p.addresses = none) :
    pyFilter (addrPred ip mac) ports = Except.error PyErr.keyError := by
  induction ports with
  | nil => cases hp
  | cons q qs ih =>
    cases hq : q.addresses with
    | none =>
      have hpred : addrPred ip mac q = Except.error PyErr.keyError := by
        rw [addrPred, hq]
      rw [pyFilter, hpred]
      rfl
    | some ad =>
      have hpq : p ∈ qs := by
        rcases List.mem_cons.mp hp with heq | hmem
        · rw [heq, hq] at ha
          cases ha
        · exact hmem
      have hpred : addrPred ip mac q =
          Except.ok (occursIn mac.data ad.data && occursIn ip.data ad.data) := by
        rw [addrPred, hq]
      rw [pyFilter, hpred, ih hpq]
      rfl

/-- C5: for every flow whose action clause yields an (ip, mac) pair, and
every well-formed cached endpoint listing (each record has an addresses
text), the lookup returns the unique record whose addresses text contains
both addresses when exactly one exists, fails with `PortNotFound` when no
record matches, and fails with `ManyPortsFound` when more than one
matches. -/
theorem c5_lookup_taxonomy (ports : List Port) (flow ip mac : String)
    (hex : matchRE_IP_ADDR flow = some (ip, mac))
    (hwf : ∀ p ∈ ports, p.addresses ≠ none) :
    (∀ res, ports.filter (addrHas ip mac) = [res] →
      get_port_uuid ports flow = Except.ok res) ∧
    (ports.filter (addrHas ip mac) = [] →
      get_port_uuid ports flow = Except.error PyErr.portNotFound) ∧
    (2 ≤ (ports.filter (addrHas ip mac)).length →
      get_port_uuid ports flow = Except.error PyErr.manyPortsFound) := by
  have hflt := @pyFilter_ok_of_wf ip mac _ hwf
  refine ⟨?_, ?_, ?_⟩
  · intro res hres
    simp only [get_port_uuid, hex]
    rw [hflt, hres]
    rfl
  · intro hres
    simp only [get_port_uuid, hex]
    rw [hflt, hres]
    rfl
  · intro hlen
    simp only [get_port_uuid, hex]
    rw [hflt]
    rcases hres : ports.filter (addrHas ip mac) with _ | ⟨r1, _ | ⟨r2, rs⟩⟩
    · rw [hres] at hlen
      simp at hlen
    · rw [hres] at hlen
      simp at hlen
    · rfl

set_option maxRecDepth 100000 in
/-- Witness for `c5_lookup_taxonomy`: among `portUp` and `portDown`, the
pair extracted from `flowToUp` matches exactly `portUp` and the lookup
returns it. -/
theorem c5_lookup_taxonomy_witness :
    get_port_uuid [portUp, portDown] flowToUp = Except.ok portUp :=
  (c5_lookup_taxonomy [portUp, portDown] flowToUp "10.0.0.1" "aa:bb:cc:dd:ee:01"
    (by rfl) (by decide)).1 portUp (by rfl)

/-- C10: when the cached endpoint listing contains a record without an
`addresses` entry — such as the empty record that
`get_list_logical_switch_port` appends when the listing text has two
consecutive blank lines — every subsequent lookup whose flow yields an
address pair raises `KeyError`, an error outside the declared
`PortNotFound`/`ManyPortsFound` taxonomy, instead of skipping the malformed
record. -/
theorem c10_lookup_keyerror (stdout : String) (ports : List Port) (p : Port)
    (hlist : get_list_logical_switch_port stdout = Except.ok ports)
    (hp : p ∈ ports) (ha : p.addresses = none)
    (flow ip mac : String) (hex : matchRE_IP_ADDR flow = some (ip, mac)) :
    get_port_uuid ports flow = Except.error PyErr.keyError := by
  simp only [get_port_uuid, hex]
  rw [pyFilter_keyerror hp ha]
  rfl

set_option maxRecDepth 100000 in
/-- Witness for `c10_lookup_keyerror`: `listingNoAddr` parses to `portUp`
followed by the empty record, and the lookup for `flowToUp`'s pair fails
with `KeyError`. -/
theorem c10_lookup_keyerror_witness :
    get_list_logical_switch_port listingNoAddr = Except.ok [portUp, portEmpty] ∧
    get_port_uuid [portUp, portEmpty] flowToUp = Except.error PyErr.keyError :=
  ⟨by rfl,
   c10_lookup_keyerror listingNoAddr [portUp, portEmpty] portEmpty (by rfl)
     (by simp [portEmpty]) rfl flowToUp "10.0.0.1" "aa:bb:cc:dd:ee:01" (by rfl)⟩

/-! ### Claim C6: the duplicate detector -/

theorem addFlow_cons_ne {e : String × List String}
    {acc : List (String × List String)} {k v : String}
    (he : (e.1 == k) = false) :
    addFlow (e :: acc) k v = e :: addFlow acc k v := by
  rw [addFlow, addFlow]
  by_cases hany : acc.any (fun kv => kv.1 == k) = true
  · rw [if_pos (by simp [List.any_cons, hany]), if_pos hany, List.map_cons, he]
    simp [he]
  · rw [if_neg (by simp [List.any_cons, he]; simpa using hany), if_neg hany,
      List.cons_append]

theorem addFlow_pairwise {acc : List (String × List String)} {k v : String}
    (h : acc.Pairwise (fun a b => a.1 ≠ b.1)) :
    (addFlow acc k v).Pairwise (fun a b => a.1 ≠ b.1) := by
  rw [addFlow]
  by_cases hany : acc.any (fun kv => kv.1 == k) = true
  · rw [if_pos hany]
    have hkey : ∀ kv : String × List String,
        ((if kv.1 == k then (kv.1, kv.2 ++ [v]) else kv) :
          String × List String).1 = kv.1 := by
      intro kv
      by_cases hk : (kv.1 == k) = true <;> simp [hk]
    refine List.Pairwise.map _ ?_ h
    intro a b hab
    simpa only [hkey] using hab
  · rw [if_neg hany]
    rw [List.pairwise_append]
    refine ⟨h, List.pairwise_singleton _ _, ?_⟩
    intro a ha b hb
    simp only [List.mem_singleton] at hb
    subst hb
    intro heq
    have hall : (a.1 == k) = false := by
      by_contra hc
      exact hany (List.any_eq_true.mpr ⟨a, ha, by simpa using hc⟩)
    rw [heq] at hall
    simp at hall

theorem filter_map_update {acc : List (String × List String)} {k k' v : String}
    (hkk : (k' == k) = false) :
    (acc.map (fun kv => if kv.1 == k' then (kv.1, kv.2 ++ [v]) else kv)).filter
        (fun kv => kv.1 == k) =
      acc.filter (fun kv => kv.1 == k) := by
  induction acc with
  | nil => rfl
  | cons e es ih =>
    rw [List.map_cons, List.filter_cons, List.filter_cons]
    by_cases he' : (e.1 == k') = true
    · rw [if_pos he']
      have hek : (e.1 == k) = false := by
        have h1 : e.1 = k' := by simpa using he'
        rw [h1]
        exact hkk
      simp only [hek]
      rw [if_neg (by simp), if_neg (by simp), ih]
    · rw [if_neg he']
      by_cases hek : (e.1 == k) = true
      · rw [if_pos (by simpa using hek), if_pos hek, ih]
      · rw [if_neg (by simpa using hek), if_neg hek, ih]

theorem addFlow_filter_self {k v : String} :
    ∀ {acc : List (String × List String)},
      acc.Pairwise (fun a b => a.1 ≠ b.1) →
      (addFlow acc k v).filter (fun kv => kv.1 == k) =
        joinEntry k (acc.filter (fun kv => kv.1 == k)) [v] := by
  intro acc
  induction acc with
  | nil =>
    intro _
    rw [addFlow, if_neg (by simp), List.nil_append, List.filter_cons,
      if_pos (by simp), List.filter_nil, joinEntry, if_neg (by simp)]
  | cons e acc' ih =>
    intro h
    have hhead : ∀ b ∈ acc', e.1 ≠ b.1 := (List.pairwise_cons.mp h).1
    have htail := (List.pairwise_cons.mp h).2
    by_cases he : (e.1 == k) = true
    · have he' : e.1 = k := by simpa using he
      have hany : (e :: acc').any (fun kv => kv.1 == k) = true := by
        simp [List.any_cons, he]
      have hnone : ∀ b ∈ acc', (b.1 == k) = false := by
        intro b hb
        have hb2 := hhead b hb
        rw [he'] at hb2
        simp only [beq_eq_false_iff_ne]
        exact fun hbk => hb2 hbk.symm
      have hmap : acc'.map
          (fun kv => if kv.1 == k then (kv.1, kv.2 ++ [v]) else kv) = acc' := by
        refine List.map_congr_left ?_ |>.trans (List.map_id' acc')
        intro b hb
        rw [if_neg (by simp [hnone b hb])]
      have hfil : acc'.filter (fun kv => kv.1 == k) = [] :=
        List.filter_eq_nil_iff.mpr (fun b hb => by simp [hnone b hb])
      rw [addFlow, if_pos hany, List.map_cons, if_pos he, hmap]
      rw [List.filter_cons, if_pos he, List.filter_cons, if_pos he, hfil,
        joinEntry]
    · have he2 : (e.1 == k) = false := by simpa using he
      rw [addFlow_cons_ne he2, List.filter_cons, List.filter_cons,
        if_neg (by simp [he2]), if_neg (by simp [he2])]
      exact ih htail

theorem addFlow_filter_ne {k k' v : String} (hkk : (k' == k) = false) :
    ∀ (acc : List (String × List String)),
      (addFlow acc k' v).filter (fun kv => kv.1 == k) =
        acc.filter (fun kv => kv.1 == k) := by
  intro acc
  induction acc with
  | nil =>
    simp [addFlow, List.filter_cons, hkk]
  | cons e acc' ih =>
    by_cases he : (e.1 == k') = true
    · have hany : (e :: acc').any (fun kv => kv.1 == k') = true := by
        simp [List.any_cons, he]
      rw [addFlow, if_pos hany]
      exact filter_map_update hkk
    · rw [addFlow_cons_ne (by simpa using he), List.filter_cons, List.filter_cons]
      by_cases hek : (e.1 == k) = true
      · rw [if_pos hek, if_pos hek, ih]
      · rw [if_neg (by simpa using hek), if_neg (by simpa using hek), ih]

theorem joinEntry_join (k v : String) (cur : List (String × List String))
    (vs : List String) :
    joinEntry k (joinEntry k cur [v]) vs = joinEntry k cur (v :: vs) := by
  cases cur with
  | nil =>
    cases vs with
    | nil => simp [joinEntry]
    | cons w ws => simp [joinEntry]
  | cons e es => simp [joinEntry, List.append_assoc]

theorem matchStrips_cons_hit {l : String} {k : String} (ls : List String)
    (h1 : matchRE_LRP l = true) (h2 : (flowKey l == k) = true) :
    matchStrips (l :: ls) k = String.mk (pyStrip l.data) :: matchStrips ls k := by
  rw [matchStrips, matchStrips, List.filter_cons, if_pos (by simp [h1, h2]),
    List.map_cons]

theorem matchStrips_cons_miss {l : String} {k : String} (ls : List String)
    (h : (matchRE_LRP l && (flowKey l == k)) = false) :
    matchStrips (l :: ls) k = matchStrips ls k := by
  rw [matchStrips, matchStrips, List.filter_cons, if_neg (by simp [h])]

theorem buildFlows_fold (k : String) :
    ∀ (lines : List String) (acc : List (String × List String)),
      acc.Pairwise (fun a b => a.1 ≠ b.1) →
      (lines.foldl buildStep acc).Pairwise (fun a b => a.1 ≠ b.1) ∧
      (lines.foldl buildStep acc).filter (fun kv => kv.1 == k) =
        joinEntry k (acc.filter (fun kv => kv.1 == k)) (matchStrips lines k) := by
  intro lines
  induction lines with
  | nil =>
    intro acc h
    refine ⟨h, ?_⟩
    rw [List.foldl_nil, matchStrips]
    cases hcur : acc.filter (fun kv => kv.1 == k) with
    | nil => simp [joinEntry]
    | cons e es => simp [joinEntry]
  | cons l ls ih =>
    intro acc h
    rw [List.foldl_cons]
    by_cases hm : matchRE_LRP l = true
    · by_cases hk : (flowKey l == k) = true
      · have hk' : flowKey l = k := by simpa using hk
        have hstep : buildStep acc l =
            addFlow acc k (String.mk (pyStrip l.data)) := by
          rw [buildStep, if_pos hm, hk']
        rw [hstep]
        obtain ⟨hpw2, hfil⟩ := ih (addFlow acc k (String.mk (pyStrip l.data)))
          (addFlow_pairwise h)
        refine ⟨hpw2, ?_⟩
        rw [hfil, addFlow_filter_self h, joinEntry_join,
          matchStrips_cons_hit ls hm hk]
      · have hstep : buildStep acc l =
            addFlow acc (flowKey l) (String.mk (pyStrip l.data)) := by
          rw [buildStep, if_pos hm]
        rw [hstep]
        obtain ⟨hpw2, hfil⟩ := ih (addFlow acc (flowKey l) (String.mk (pyStrip l.data)))
          (addFlow_pairwise h)
        refine ⟨hpw2, ?_⟩
        rw [hfil, addFlow_filter_ne (by simpa using hk),
          matchStrips_cons_miss ls (by simp [hk])]
    · have hstep : buildStep acc l = acc := by
        rw [buildStep, if_neg hm]
      rw [hstep]
      obtain ⟨hpw2, hfil⟩ := ih acc h
      refine ⟨hpw2, ?_⟩
      rw [hfil, matchStrips_cons_miss ls (by simp [hm])]

theorem filter_swap {α : Type} (p q : α → Bool) (l : List α) :
    (l.filter p).filter q = (l.filter q).filter p := by
  rw [List.filter_filter, List.filter_filter]
  apply List.filter_congr
  intro a _
  exact Bool.and_comm (q a) (p a)

/-- C6: for every rule listing and rule key `k`, with N the number of
body lines passing the `lr_in_arp_resolve` filter whose first three
comma-separated fields equal `k`: when N ≥ 2 the detector's report has
exactly one group for `k`, holding exactly those N lines (stripped) in
source order; when N = 1 it has no group for `k`. -/
theorem c6_one_group_per_key (stdout : String) (k : String) :
    (2 ≤ (matchStrips (((stdout.data.splitOn '\n').map String.mk).drop 1) k).length →
      (find_lflow_dups stdout).filter (fun kv => kv.1 == k) =
        [(k, matchStrips (((stdout.data.splitOn '\n').map String.mk).drop 1) k)]) ∧
    ((matchStrips (((stdout.data.splitOn '\n').map String.mk).drop 1) k).length = 1 →
      (find_lflow_dups stdout).filter (fun kv => kv.1 == k) = []) := by
  obtain ⟨-, hfil⟩ := buildFlows_fold k
    (((stdout.data.splitOn '\n').map String.mk).drop 1) [] List.Pairwise.nil
  rw [List.filter_nil] at hfil
  constructor
  · intro hlen
    rw [find_lflow_dups, buildFlows, filter_swap, hfil]
    cases hms : matchStrips (((stdout.data.splitOn '\n').map String.mk).drop 1) k with
    | nil =>
      rw [hms] at hlen
      simp at hlen
    | cons w ws =>
      rw [hms] at hlen
      rw [joinEntry, if_neg (by simp)]
      rw [List.filter_cons, if_pos (by simp only [decide_eq_true_eq]; omega)]
      rfl
  · intro hlen
    rw [find_lflow_dups, buildFlows, filter_swap, hfil]
    cases hms : matchStrips (((stdout.data.splitOn '\n').map String.mk).drop 1) k with
    | nil =>
      rw [hms] at hlen
      simp at hlen
    | cons w ws =>
      rw [hms] at hlen
      rw [joinEntry, if_neg (by simp)]
      rw [List.filter_cons, if_neg (by simp only [decide_eq_true_eq]; omega)]
      rfl

set_option maxRecDepth 1000000 in
/-- Witness for `c6_one_group_per_key`: the two conflicting lines of
`lflowStdout` share one rule key and yield exactly one group. -/
theorem c6_one_group_per_key_witness :
    (find_lflow_dups lflowStdout).filter
        (fun kv => kv.1 == flowKey lflowLine1) =
      [(flowKey lflowLine1,
        matchStrips (((lflowStdout.data.splitOn '\n').map String.mk).drop 1)
          (flowKey lflowLine1))] :=
  (c6_one_group_per_key lflowStdout (flowKey lflowLine1)).1 (by decide)

/-! ### Claim C9: volatile-field stripping and idempotence -/

theorem splitOnP_no_sat {p : Char → Bool} :
    ∀ {s t : List Char}, t ∈ s.splitOnP p → ∀ c ∈ t, p c = false := by
  intro s
  induction s with
  | nil =>
    intro t ht c hc
    rw [List.splitOnP_nil] at ht
    simp only [List.mem_singleton] at ht
    subst ht
    cases hc
  | cons a s ih =>
    intro t ht c hc
    rw [List.splitOnP_cons] at ht
    by_cases hpa : p a = true
    · rw [if_pos hpa] at ht
      rcases List.mem_cons.mp ht with h1 | h2
      · subst h1
        cases hc
      · exact ih h2 c hc
    · rw [if_neg hpa] at ht
      cases hsp : s.splitOnP p with
      | nil => exact absurd hsp (List.splitOnP_ne_nil p s)
      | cons h0 tl =>
        rw [hsp] at ht
        simp only [List.modifyHead] at ht
        rcases List.mem_cons.mp ht with h1 | h2
        · subst h1
          rcases List.mem_cons.mp hc with hc1 | hc2
          · subst hc1
            exact Bool.eq_false_iff.mpr hpa
          · exact ih (by rw [hsp]; exact List.mem_cons_self h0 tl) c hc2
        · exact ih (by rw [hsp]; exact List.mem_cons_of_mem h0 h2) c hc

theorem splitOnP_mem_subset {p : Char → Bool} :
    ∀ {s t : List Char}, t ∈ s.splitOnP p → ∀ c ∈ t, c ∈ s := by
  intro s
  induction s with
  | nil =>
    intro t ht c hc
    rw [List.splitOnP_nil] at ht
    simp only [List.mem_singleton] at ht
    subst ht
    cases hc
  | cons a s ih =>
    intro t ht c hc
    rw [List.splitOnP_cons] at ht
    by_cases hpa : p a = true
    · rw [if_pos hpa] at ht
      rcases List.mem_cons.mp ht with h1 | h2
      · subst h1
        cases hc
      · exact List.mem_cons_of_mem a (ih h2 c hc)
    · rw [if_neg hpa] at ht
      cases hsp : s.splitOnP p with
      | nil => exact absurd hsp (List.splitOnP_ne_nil p s)
      | cons h0 tl =>
        rw [hsp] at ht
        simp only [List.modifyHead] at ht
        rcases List.mem_cons.mp ht with h1 | h2
        · subst h1
          rcases List.mem_cons.mp hc with hc1 | hc2
          · rw [hc1]
            exact List.mem_cons_self _ _
          · exact List.mem_cons_of_mem a
              (ih (by rw [hsp]; exact List.mem_cons_self h0 tl) c hc2)
        · exact List.mem_cons_of_mem a
            (ih (by rw [hsp]; exact List.mem_cons_of_mem h0 h2) c hc)

theorem mem_pyRstrip {s : List Char} {c : Char} (h : c ∈ pyRstrip s) :
    c ∈ s := by
  unfold pyRstrip at h
  rw [List.mem_reverse] at h
  exact List.mem_reverse.mp (List.Sublist.mem h (List.dropWhile_sublist _))

theorem all_intercalate {q : Char → Bool} {sep : List Char}
    (hsep : ∀ c ∈ sep, q c = true) :
    ∀ {ts : List (List Char)}, (∀ t ∈ ts, ∀ c ∈ t, q c = true) →
      ∀ c ∈ sep.intercalate ts, q c = true := by
  intro ts
  induction ts with
  | nil =>
    intro _ c hc
    simp [List.intercalate] at hc
  | cons a ts ih =>
    intro hts c hc
    cases ts with
    | nil =>
      rw [intercalate_one] at hc
      exact hts a (List.mem_cons_self a []) c hc
    | cons b ts' =>
      rw [intercalate_two] at hc
      rcases List.mem_append.mp hc with h1 | h2
      · rcases List.mem_append.mp h1 with h11 | h12
        · exact hts a (List.mem_cons_self a _) c h11
        · exact hsep c h12
      · exact ih (fun t ht => hts t (List.mem_cons_of_mem a ht)) c h2

theorem ofctl_tokens_nonvolatile {tokens : List (List Char)}
    (hnc : ∀ t ∈ tokens, ∀ c ∈ t, (c == ',') = false) :
    ∀ kv ∈ (String.mk ([','].intercalate
        (tokens.filter (fun kv => !kv.isEmpty && !isVolatile kv)))).data.splitOn ',',
      isVolatile kv = false := by
  intro kv hkv
  cases hkept : tokens.filter (fun kv => !kv.isEmpty && !isVolatile kv) with
  | nil =>
    rw [hkept] at hkv
    rw [show ([','].intercalate ([] : List (List Char))) = [] from rfl] at hkv
    rw [show List.splitOn ',' ([] : List Char) = [[]] from rfl] at hkv
    simp only [List.mem_singleton] at hkv
    subst hkv
    rfl
  | cons w ws =>
    have hsub : ∀ l ∈ tokens.filter (fun kv => !kv.isEmpty && !isVolatile kv),
        ',' ∉ l := by
      intro l hl hcl
      have := hnc l (List.mem_of_mem_filter hl) ',' hcl
      simp at this
    rw [show (String.mk ([','].intercalate
        (tokens.filter (fun kv => !kv.isEmpty && !isVolatile kv)))).data =
        [','].intercalate (tokens.filter (fun kv => !kv.isEmpty && !isVolatile kv))
      from rfl] at hkv
    rw [List.splitOn_intercalate _ ',' hsub (by rw [hkept]; exact List.cons_ne_nil w ws)]
      at hkv
    have hp := (List.mem_filter.mp hkv).2
    simp only [Bool.and_eq_true, Bool.not_eq_true'] at hp
    exact hp.2

theorem ofctl_round {tokens : List (List Char)}
    (hnc : ∀ t ∈ tokens, ∀ c ∈ t, (c == ',') = false)
    (hnw : ∀ t ∈ tokens, ∀ c ∈ t, pyIsSpace c = false) :
    extract_flow_from_ofctl (String.mk ([','].intercalate
        (tokens.filter (fun kv => !kv.isEmpty && !isVolatile kv)))) =
      String.mk ([','].intercalate
        (tokens.filter (fun kv => !kv.isEmpty && !isVolatile kv))) := by
  cases hkept : tokens.filter (fun kv => !kv.isEmpty && !isVolatile kv) with
  | nil => rfl
  | cons w ws =>
    rw [← hkept]
    have hallq : ∀ c ∈ [','].intercalate
        (tokens.filter (fun kv => !kv.isEmpty && !isVolatile kv)),
        (!pyIsSpace c && !(c == ' ')) = true := by
      refine all_intercalate ?_ ?_
      · intro c hc
        simp only [List.mem_singleton] at hc
        subst hc
        decide
      · intro t ht c hc
        have h1 := hnw t (List.mem_of_mem_filter ht) c hc
        have h2 : (c == ' ') = false := by
          simp only [beq_eq_false_iff_ne]
          intro hce
          subst hce
          simp [pyIsSpace] at h1
        simp [h1, h2]
    have hrstrip : pyRstrip ([','].intercalate
        (tokens.filter (fun kv => !kv.isEmpty && !isVolatile kv))) =
        [','].intercalate (tokens.filter (fun kv => !kv.isEmpty && !isVolatile kv)) := by
      apply pyRstrip_eq_self_of_all
      rw [List.all_eq_true]
      intro c hc
      have := hallq c hc
      simp only [Bool.and_eq_true] at this
      exact this.1
    have hrep : pyReplace " ".data ",".data ([','].intercalate
        (tokens.filter (fun kv => !kv.isEmpty && !isVolatile kv))) =
        [','].intercalate (tokens.filter (fun kv => !kv.isEmpty && !isVolatile kv)) := by
      rw [show (" ".data : List Char) = [' '] from rfl,
        show (",".data : List Char) = [','] from rfl,
        pyReplace_single_char]
      apply map_eq_self_of_all
      intro c hc
      have h0 := hallq c hc
      simp only [Bool.and_eq_true] at h0
      have h2 : (c == ' ') = false := by simpa using h0.2
      rw [if_neg (by simp [h2])]
    have hsplit : ([','].intercalate
        (tokens.filter (fun kv => !kv.isEmpty && !isVolatile kv))).splitOn ',' =
        tokens.filter (fun kv => !kv.isEmpty && !isVolatile kv) := by
      apply List.splitOn_intercalate _ ','
      · intro l hl hcl
        have := hnc l (List.mem_of_mem_filter hl) ',' hcl
        simp at this
      · rw [hkept]
        exact List.cons_ne_nil w ws
    have hfil : (tokens.filter (fun kv => !kv.isEmpty && !isVolatile kv)).filter
        (fun kv => !kv.isEmpty && !isVolatile kv) =
        tokens.filter (fun kv => !kv.isEmpty && !isVolatile kv) :=
      List.filter_eq_self.mpr (fun a ha => (List.mem_filter.mp ha).2)
    show String.mk ([','].intercalate
        (((pyReplace " ".data ",".data (pyRstrip ([','].intercalate
          (tokens.filter (fun kv => !kv.isEmpty && !isVolatile kv))))).splitOn ',').filter
          (fun kv => !kv.isEmpty && !isVolatile kv))) = _
    rw [hrstrip, hrep, hsplit, hfil]

/-- C9, counterexample: canonicalization is not idempotent as claimed —
on the line `"\t,"` the first pass yields `"\t"` (the trailing empty token
is dropped, the tab survives inside a token), while the second pass rstrips
the now-trailing tab and yields `""`. -/
theorem c9_counterexample :
    extract_flow_from_ofctl (extract_flow_from_ofctl "\t,") ≠
      extract_flow_from_ofctl "\t," := by
  decide

/-- C9 (amended): every comma-token of `extract_flow_from_ofctl`'s output is
free of the duration/n_packets/n_bytes/idle_age markers — in particular
every field whose key is one of them is removed; and for lines whose only
whitespace character is the plain space, applying `extract_flow_from_ofctl`
to its own output returns that output unchanged. -/
theorem c9_strip_and_idem (line : String) :
    (∀ kv ∈ (extract_flow_from_ofctl line).data.splitOn ',',
      isVolatile kv = false) ∧
    (spaceOnlyWs line.data = true →
      extract_flow_from_ofctl (extract_flow_from_ofctl line) =
        extract_flow_from_ofctl line) := by
  have hnc : ∀ t ∈ (pyReplace " ".data ",".data (pyRstrip line.data)).splitOn ',',
      ∀ c ∈ t, (c == ',') = false := by
    intro t ht c hc
    exact splitOnP_no_sat (by simpa [List.splitOn] using ht) c hc
  constructor
  · exact ofctl_tokens_nonvolatile hnc
  · intro hws
    have hws' : ∀ c ∈ line.data, pyIsSpace c = true → c = ' ' := by
      intro c hc hsp
      have := (List.all_eq_true.mp hws) c hc
      simp only [Bool.or_eq_true, Bool.not_eq_true'] at this
      rcases this with h1 | h2
      · rw [h1] at hsp
        cases hsp
      · simpa using h2
    have hnw : ∀ t ∈ (pyReplace " ".data ",".data (pyRstrip line.data)).splitOn ',',
        ∀ c ∈ t, pyIsSpace c = false := by
      intro t ht c hc
      have hcm : c ∈ pyReplace " ".data ",".data (pyRstrip line.data) :=
        splitOnP_mem_subset (by simpa [List.splitOn] using ht) c hc
      rw [show (" ".data : List Char) = [' '] from rfl,
        show (",".data : List Char) = [','] from rfl,
        pyReplace_single_char] at hcm
      obtain ⟨d, hd, hdc⟩ := List.mem_map.mp hcm
      by_cases hde : (d == ' ') = true
      · rw [if_pos hde] at hdc
        subst hdc
        decide
      · rw [if_neg hde] at hdc
        subst hdc
        by_contra hcon
        have hsp : pyIsSpace d = true := by
          cases hx : pyIsSpace d
          · exact absurd hx hcon
          · rfl
        have := hws' d (mem_pyRstrip hd) hsp
        rw [this] at hde
        simp at hde
    exact ofctl_round hnc hnw

/-- Witness for `c9_strip_and_idem` at the documented `ovs-ofctl` line. -/
theorem c9_strip_and_idem_witness :
    extract_flow_from_ofctl (extract_flow_from_ofctl ofctlDocLine) =
      extract_flow_from_ofctl ofctlDocLine :=
  (c9_strip_and_idem ofctlDocLine).2 (by decide)

/-! ### Claim C1: cross-format equivalence of the three canonicalizers -/

theorem dropLast_append_lit {x lit : List Char} (hne : lit ≠ []) :
    (x ++ lit).dropLast = x ++ lit.dropLast := by
  cases lit with
  | nil => cases hne rfl
  | cons b l2 => exact List.dropLast_append_cons

theorem pyReplace_head {pat rep b : List Char}
    (hb : occursIn pat b = false)
    (hd : occursIn pat pat.dropLast = false) :
    pyReplace pat rep (pat ++ b) = rep ++ b := by
  have h := @pyReplace_append pat rep [] b
    (by simpa using hd)
  rw [pyReplace_eq_self hb] at h
  simpa using h

/-- The debug-log pipeline: on a well-formed `ofctrl_add_flow flow:` line
carrying the rule `(c, t, p, m, a)`, `extract_flow_from_logline` yields the
canonical string.  The hypotheses say: the fields contain no spaces, the
actions text is nonempty with no trailing whitespace, and none of the
markers `flow:`, `table_id=`, `cookie=` occurs anywhere it should not. -/
theorem extract_logline_canon
    (pre c t p m a : String)
    (hns_c : noSpace c.data = true) (hns_t : noSpace t.data = true)
    (hns_p : noSpace p.data = true) (hns_m : noSpace m.data = true)
    (hns_a : noSpace a.data = true)
    (ha_ne : a.data ≠ []) (ha_rs : pyRstrip a.data = a.data)
    (hpre : occursIn "flow:".data (pre.data ++ "flow".data) = false)
    (hrest : occursIn "flow:".data
      (" cookie=".data ++ (c.data ++ (", table_id=".data ++ (t.data ++
        (", priority=".data ++ (p.data ++ (", ".data ++ (m.data ++
          (", actions=".data ++ a.data))))))))) = false)
    (htid1 : occursIn "table_id=".data
      ("cookie=".data ++ (c.data ++ ([','] ++ "table_id".data))) = false)
    (htid2 : occursIn "table_id=".data
      (t.data ++ (",priority=".data ++ (p.data ++ ([','] ++ (m.data ++
        (",actions=".data ++ a.data)))))) = false)
    (hck : occursIn "cookie=".data
      (c.data ++ ([','] ++ ("table=".data ++ (t.data ++ (",priority=".data ++
        (p.data ++ ([','] ++ (m.data ++ (",actions=".data ++ a.data))))))))) = false) :
    extract_flow_from_logline (renderLog pre c t p m a) =
      some (String.mk (canonFlow c t p m a)) := by
  have hsplitL : pyRstrip (renderLog pre c t p m a).data =
      pre.data ++ ("flow:".data ++
        (" cookie=".data ++ (c.data ++ (", table_id=".data ++ (t.data ++
          (", priority=".data ++ (p.data ++ (", ".data ++ (m.data ++
            (", actions=".data ++ a.data)))))))))) := by
    have hL : (renderLog pre c t p m a).data =
        (pre.data ++ "flow: cookie=".data ++ c.data ++ ", table_id=".data ++
          t.data ++ ", priority=".data ++ p.data ++ ", ".data ++ m.data ++
          ", actions=".data) ++ a.data := by
      simp [renderLog, String.data_append, List.append_assoc]
    rw [hL, pyRstrip_append ha_ne ha_rs]
    rw [show "flow: cookie=".data = "flow:".data ++ " cookie=".data from rfl]
    simp [List.append_assoc]
  have hyp1 : occursIn "flow:".data ((pre.data ++ "flow:".data).dropLast) = false := by
    rw [dropLast_append_lit (by decide),
      show "flow:".data.dropLast = "flow".data from rfl]
    exact hpre
  have hA : pyReplace " ".data "".data
      (" cookie=".data ++ (c.data ++ (", table_id=".data ++ (t.data ++
        (", priority=".data ++ (p.data ++ (", ".data ++ (m.data ++
          (", actions=".data ++ a.data))))))))) =
      "cookie=".data ++ (c.data ++ (",table_id=".data ++ (t.data ++
        (",priority=".data ++ (p.data ++ ([','] ++ (m.data ++
          (",actions=".data ++ a.data)))))))) := by
    rw [show (" ".data : List Char) = [' '] from rfl,
      show ("".data : List Char) = [] from rfl, pyReplace_del_char]
    simp only [List.filter_append]
    rw [filter_eq_self_of_all hns_c, filter_eq_self_of_all hns_t,
      filter_eq_self_of_all hns_p, filter_eq_self_of_all hns_m,
      filter_eq_self_of_all hns_a]
    rw [show " cookie=".data.filter (fun ch => !(ch == ' ')) = "cookie=".data from rfl,
      show ", table_id=".data.filter (fun ch => !(ch == ' ')) = ",table_id=".data from rfl,
      show ", priority=".data.filter (fun ch => !(ch == ' ')) = ",priority=".data from rfl,
      show ", ".data.filter (fun ch => !(ch == ' ')) = [','] from rfl,
      show ", actions=".data.filter (fun ch => !(ch == ' ')) = ",actions=".data from rfl]
  have hB : pyReplace "table_id=".data "table=".data
      ("cookie=".data ++ (c.data ++ (",table_id=".data ++ (t.data ++
        (",priority=".data ++ (p.data ++ ([','] ++ (m.data ++
          (",actions=".data ++ a.data))))))))) =
      ("cookie=".data ++ c.data ++ [',']) ++ ("table=".data ++
        (t.data ++ (",priority=".data ++ (p.data ++ ([','] ++ (m.data ++
          (",actions=".data ++ a.data))))))) := by
    have hsh : "cookie=".data ++ (c.data ++ (",table_id=".data ++ (t.data ++
        (",priority=".data ++ (p.data ++ ([','] ++ (m.data ++
          (",actions=".data ++ a.data)))))))) =
        ("cookie=".data ++ c.data ++ [',']) ++ ("table_id=".data ++
          (t.data ++ (",priority=".data ++ (p.data ++ ([','] ++ (m.data ++
            (",actions=".data ++ a.data))))))) := by
      rw [show (",table_id=".data : List Char) = [','] ++ "table_id=".data from rfl]
      simp [List.append_assoc]
    have htid1' : occursIn "table_id=".data
        ((("cookie=".data ++ c.data ++ [',']) ++ "table_id=".data).dropLast) = false := by
      rw [dropLast_append_lit (by decide),
        show "table_id=".data.dropLast = "table_id".data from rfl]
      have hsh2 : ("cookie=".data ++ c.data ++ [',']) ++ "table_id".data =
          "cookie=".data ++ (c.data ++ ([','] ++ "table_id".data)) := by
        simp [List.append_assoc]
      rw [hsh2]
      exact htid1
    rw [hsh, pyReplace_append htid1']
    rw [pyReplace_eq_self htid2]
  have hC : pyReplace "cookie=".data "cookie=0x".data
      (("cookie=".data ++ c.data ++ [',']) ++ ("table=".data ++
        (t.data ++ (",priority=".data ++ (p.data ++ ([','] ++ (m.data ++
          (",actions=".data ++ a.data)))))))) =
      canonFlow c t p m a := by
    have hsh : (("cookie=".data ++ c.data ++ [',']) ++ ("table=".data ++
        (t.data ++ (",priority=".data ++ (p.data ++ ([','] ++ (m.data ++
          (",actions=".data ++ a.data)))))))) =
        "cookie=".data ++ (c.data ++ ([','] ++ ("table=".data ++
          (t.data ++ (",priority=".data ++ (p.data ++ ([','] ++ (m.data ++
            (",actions=".data ++ a.data))))))))) := by
      simp [List.append_assoc]
    rw [hsh, pyReplace_head hck (by decide), canonFlow]
    rw [show (",priority=".data : List Char) = [','] ++ "priority=".data from rfl,
      show (",actions=".data : List Char) = [','] ++ "actions=".data from rfl]
    simp [List.append_assoc]
  rw [extract_flow_from_logline, hsplitL, pySplit_append hyp1,
    pySplit_eq_single hrest]
  simp only [List.get?_cons_succ, List.get?_cons_zero, Option.map_some']
  rw [hA, hB, hC]

theorem modifyHead_append_left {α : Type} (f : α → α) {l₁ : List α}
    (l₂ : List α) (h : l₁ ≠ []) :
    (l₁ ++ l₂).modifyHead f = l₁.modifyHead f ++ l₂ := by
  cases l₁ with
  | nil => cases h rfl
  | cons a l => rfl

theorem splitOn_cons_self (x : Char) (v : List Char) :
    (x :: v).splitOn x = [] :: v.splitOn x := by
  simp only [List.splitOn, List.splitOnP_cons]
  rw [if_pos (by simp)]

theorem splitOn_cons_ne {x c : Char} (v : List Char) (h : (c == x) = false) :
    (c :: v).splitOn x = (v.splitOn x).modifyHead (List.cons c) := by
  simp only [List.splitOn, List.splitOnP_cons]
  rw [if_neg (by simp [h])]

theorem splitOn_char_append (x : Char) (u v : List Char) :
    (u ++ x :: v).splitOn x = u.splitOn x ++ v.splitOn x := by
  induction u with
  | nil =>
    rw [List.nil_append, splitOn_cons_self]
    rfl
  | cons c u' ih =>
    by_cases hc : (c == x) = true
    · have hc' : c = x := by simpa using hc
      subst hc'
      rw [List.cons_append, splitOn_cons_self, splitOn_cons_self, ih]
      rfl
    · rw [List.cons_append, splitOn_cons_ne _ (by simpa using hc),
        splitOn_cons_ne _ (by simpa using hc), ih,
        modifyHead_append_left _ _ (by simp [List.splitOn, List.splitOnP_ne_nil])]

/-- The live-dump pipeline: on a well-formed `ovs-ofctl` line carrying the
rule `(c, t, p, m, a)` interleaved with the volatile duration/n_packets/
n_bytes/idle_age fields, `extract_flow_from_ofctl` yields the canonical
string.  The hypotheses say: no field contains a space; the single-token
fields contain no comma; the actions text is nonempty with no trailing
whitespace; the cookie, table and priority tokens mention no volatile
marker; and every comma-chunk of the match and of the actions token is
nonempty and mentions no volatile marker. -/
theorem extract_ofctl_canon
    (c t p m a dur np nb ia : String)
    (hns_c : noSpace c.data = true) (hns_t : noSpace t.data = true)
    (hns_p : noSpace p.data = true) (hns_m : noSpace m.data = true)
    (hns_a : noSpace a.data = true) (hns_dur : noSpace dur.data = true)
    (hns_np : noSpace np.data = true) (hns_nb : noSpace nb.data = true)
    (hns_ia : noSpace ia.data = true)
    (hnc_c : noComma c.data = true) (hnc_t : noComma t.data = true)
    (hnc_p : noComma p.data = true) (hnc_dur : noComma dur.data = true)
    (hnc_np : noComma np.data = true) (hnc_nb : noComma nb.data = true)
    (hnc_ia : noComma ia.data = true)
    (ha_ne : a.data ≠ []) (ha_rs : pyRstrip a.data = a.data)
    (hb_c : isVolatile ("cookie=0x".data ++ c.data) = false)
    (hb_t : isVolatile ("table=".data ++ t.data) = false)
    (hb_p : isVolatile ("priority=".data ++ p.data) = false)
    (hm_toks : ∀ tok ∈ m.data.splitOn ',', tok ≠ [] ∧ isVolatile tok = false)
    (ha_toks : ∀ tok ∈ ("actions=".data ++ a.data).splitOn ',',
      tok ≠ [] ∧ isVolatile tok = false) :
    extract_flow_from_ofctl (renderOfctl c t p m a dur np nb ia) =
      String.mk (canonFlow c t p m a) := by
  have hmf : ∀ s : List Char, noSpace s = true →
      s.map (fun ch => if ch == ' ' then ',' else ch) = s := by
    intro s hs
    apply map_eq_self_of_all
    intro ch hch
    have h := List.all_eq_true.mp hs ch hch
    rw [Bool.not_eq_true'] at h
    simp [h]
  have hvol : ∀ lit fld : List Char, lit ≠ [] → lit.isPrefixOf (lit ++ fld) = true →
      True := fun _ _ _ _ => trivial
  have hv_dur : isVolatile ("duration=".data ++ dur.data) = true := by
    have hp : "duration".data <+: "duration=".data ++ dur.data :=
      ⟨"=".data ++ dur.data, by
        rw [show ("duration=".data : List Char) = "duration".data ++ "=".data from rfl]
        simp [List.append_assoc]⟩
    rw [isVolatile, occursIn_of_isPrefix (by decide) hp]
    simp
  have hv_np : isVolatile ("n_packets=".data ++ np.data) = true := by
    have hp : "n_packets".data <+: "n_packets=".data ++ np.data :=
      ⟨"=".data ++ np.data, by
        rw [show ("n_packets=".data : List Char) = "n_packets".data ++ "=".data from rfl]
        simp [List.append_assoc]⟩
    rw [isVolatile, occursIn_of_isPrefix (by decide) hp]
    simp
  have hv_nb : isVolatile ("n_bytes=".data ++ nb.data) = true := by
    have hp : "n_bytes".data <+: "n_bytes=".data ++ nb.data :=
      ⟨"=".data ++ nb.data, by
        rw [show ("n_bytes=".data : List Char) = "n_bytes".data ++ "=".data from rfl]
        simp [List.append_assoc]⟩
    rw [isVolatile, occursIn_of_isPrefix (by decide) hp]
    simp
  have hv_ia : isVolatile ("idle_age=".data ++ ia.data) = true := by
    have hp : "idle_age".data <+: "idle_age=".data ++ ia.data :=
      ⟨"=".data ++ ia.data, by
        rw [show ("idle_age=".data : List Char) = "idle_age".data ++ "=".data from rfl]
        simp [List.append_assoc]⟩
    rw [isVolatile, occursIn_of_isPrefix (by decide) hp]
    simp
  have hm_fil : (m.data.splitOn ',').filter
      (fun kv => !kv.isEmpty && !isVolatile kv) = m.data.splitOn ',' := by
    apply List.filter_eq_self.mpr
    intro tok htok
    obtain ⟨h1, h2⟩ := hm_toks tok htok
    have h3 : tok.isEmpty = false := by
      cases tok with
      | nil => cases h1 rfl
      | cons x xs => rfl
    simp [h3, h2]
  have ha_fil : (("actions=".data ++ a.data).splitOn ',').filter
      (fun kv => !kv.isEmpty && !isVolatile kv) =
      ("actions=".data ++ a.data).splitOn ',' := by
    apply List.filter_eq_self.mpr
    intro tok htok
    obtain ⟨h1, h2⟩ := ha_toks tok htok
    have h3 : tok.isEmpty = false := by
      cases tok with
      | nil => cases h1 rfl
      | cons x xs => rfl
    simp [h3, h2]
  have hL : (renderOfctl c t p m a dur np nb ia).data =
      ("cookie=0x".data ++ c.data ++ ", duration=".data ++ dur.data ++
        ", table=".data ++ t.data ++ ", n_packets=".data ++ np.data ++
        ", n_bytes=".data ++ nb.data ++ ", idle_age=".data ++ ia.data ++
        ", priority=".data ++ p.data ++ ",".data ++ m.data ++
        " actions=".data) ++ a.data := by
    simp only [renderOfctl, String.data_append]
  show String.mk ([','].intercalate
      (((pyReplace " ".data ",".data
        (pyRstrip (renderOfctl c t p m a dur np nb ia).data)).splitOn ',').filter
        (fun kv => !kv.isEmpty && !isVolatile kv))) = _
  rw [hL, pyRstrip_append ha_ne ha_rs]
  rw [show (" ".data : List Char) = [' '] from rfl,
    show (",".data : List Char) = [','] from rfl, pyReplace_single_char]
  simp only [List.map_append]
  rw [hmf _ hns_c, hmf _ hns_t, hmf _ hns_p, hmf _ hns_m, hmf _ hns_a,
    hmf _ hns_dur, hmf _ hns_np, hmf _ hns_nb, hmf _ hns_ia]
  rw [show "cookie=0x".data.map (fun ch => if ch == ' ' then ',' else ch) =
      "cookie=0x".data from rfl,
    show ", duration=".data.map (fun ch => if ch == ' ' then ',' else ch) =
      ",,duration=".data from rfl,
    show ", table=".data.map (fun ch => if ch == ' ' then ',' else ch) =
      ",,table=".data from rfl,
    show ", n_packets=".data.map (fun ch => if ch == ' ' then ',' else ch) =
      ",,n_packets=".data from rfl,
    show ", n_bytes=".data.map (fun ch => if ch == ' ' then ',' else ch) =
      ",,n_bytes=".data from rfl,
    show ", idle_age=".data.map (fun ch => if ch == ' ' then ',' else ch) =
      ",,idle_age=".data from rfl,
    show ", priority=".data.map (fun ch => if ch == ' ' then ',' else ch) =
      ",,priority=".data from rfl,
    show ([','] : List Char).map (fun ch => if ch == ' ' then ',' else ch) =
      [','] from rfl,
    show " actions=".data.map (fun ch => if ch == ' ' then ',' else ch) =
      ",actions=".data from rfl]
  have hshape : "cookie=0x".data ++ c.data ++ ",,duration=".data ++ dur.data ++
      ",,table=".data ++ t.data ++ ",,n_packets=".data ++ np.data ++
      ",,n_bytes=".data ++ nb.data ++ ",,idle_age=".data ++ ia.data ++
      ",,priority=".data ++ p.data ++ [','] ++ m.data ++ ",actions=".data ++
      a.data =
      ("cookie=0x".data ++ c.data) ++ ',' :: (',' ::
        (("duration=".data ++ dur.data) ++ ',' :: (',' ::
          (("table=".data ++ t.data) ++ ',' :: (',' ::
            (("n_packets=".data ++ np.data) ++ ',' :: (',' ::
              (("n_bytes=".data ++ nb.data) ++ ',' :: (',' ::
                (("idle_age=".data ++ ia.data) ++ ',' :: (',' ::
                  (("priority=".data ++ p.data) ++ ',' ::
                    (m.data ++ ',' ::
                      ("actions=".data ++ a.data)))))))))))))) := by
    rw [show (",,duration=".data : List Char) = [','] ++ ([','] ++ "duration=".data) from rfl,
      show (",,table=".data : List Char) = [','] ++ ([','] ++ "table=".data) from rfl,
      show (",,n_packets=".data : List Char) = [','] ++ ([','] ++ "n_packets=".data) from rfl,
      show (",,n_bytes=".data : List Char) = [','] ++ ([','] ++ "n_bytes=".data) from rfl,
      show (",,idle_age=".data : List Char) = [','] ++ ([','] ++ "idle_age=".data) from rfl,
      show (",,priority=".data : List Char) = [','] ++ ([','] ++ "priority=".data) from rfl,
      show (",actions=".data : List Char) = [','] ++ "actions=".data from rfl]
    simp [List.append_assoc]
  rw [hshape]
  simp only [splitOn_char_append, splitOn_cons_self]
  rw [@splitOn_char_single ',' _
      (by simp only [List.all_append, Bool.and_eq_true]; exact ⟨by decide, hnc_c⟩),
    @splitOn_char_single ',' _
      (by simp only [List.all_append, Bool.and_eq_true]; exact ⟨by decide, hnc_dur⟩),
    @splitOn_char_single ',' _
      (by simp only [List.all_append, Bool.and_eq_true]; exact ⟨by decide, hnc_t⟩),
    @splitOn_char_single ',' _
      (by simp only [List.all_append, Bool.and_eq_true]; exact ⟨by decide, hnc_np⟩),
    @splitOn_char_single ',' _
      (by simp only [List.all_append, Bool.and_eq_true]; exact ⟨by decide, hnc_nb⟩),
    @splitOn_char_single ',' _
      (by simp only [List.all_append, Bool.and_eq_true]; exact ⟨by decide, hnc_ia⟩),
    @splitOn_char_single ',' _
      (by simp only [List.all_append, Bool.and_eq_true]; exact ⟨by decide, hnc_p⟩)]
  simp only [List.filter_append, List.filter_cons, List.filter_nil]
  have hnil : ¬((!List.isEmpty ([] : List Char) && !isVolatile []) = true) := by
    decide
  have hkc : (!List.isEmpty ("cookie=0x".data ++ c.data) &&
      !isVolatile ("cookie=0x".data ++ c.data)) = true := by rw [hb_c]; rfl
  have hkt : (!List.isEmpty ("table=".data ++ t.data) &&
      !isVolatile ("table=".data ++ t.data)) = true := by rw [hb_t]; rfl
  have hkp : (!List.isEmpty ("priority=".data ++ p.data) &&
      !isVolatile ("priority=".data ++ p.data)) = true := by rw [hb_p]; rfl
  have hd1 : ¬((!List.isEmpty ("duration=".data ++ dur.data) &&
      !isVolatile ("duration=".data ++ dur.data)) = true) := by
    rw [hv_dur]; simp
  have hd2 : ¬((!List.isEmpty ("n_packets=".data ++ np.data) &&
      !isVolatile ("n_packets=".data ++ np.data)) = true) := by
    rw [hv_np]; simp
  have hd3 : ¬((!List.isEmpty ("n_bytes=".data ++ nb.data) &&
      !isVolatile ("n_bytes=".data ++ nb.data)) = true) := by
    rw [hv_nb]; simp
  have hd4 : ¬((!List.isEmpty ("idle_age=".data ++ ia.data) &&
      !isVolatile ("idle_age=".data ++ ia.data)) = true) := by
    rw [hv_ia]; simp
  rw [if_pos hkc, if_pos hkt, if_pos hkp, if_neg hd1, if_neg hd2, if_neg hd3,
    if_neg hd4]
  simp only [if_neg hnil, List.nil_append]
  rw [hm_fil, ha_fil]
  have hmne : m.data.splitOn ',' ≠ [] := by
    simp [List.splitOn]
    exact List.splitOnP_ne_nil _ _
  have hane : ("actions=".data ++ a.data).splitOn ',' ≠ [] := by
    simp [List.splitOn]
    exact List.splitOnP_ne_nil _ _
  rw [intercalate_append_ne (List.cons_ne_nil _ _)
      (by simp [hane]),
    intercalate_append_ne (List.cons_ne_nil _ _)
      (by simp [hane]),
    intercalate_append_ne (List.cons_ne_nil _ _)
      (fun hq => hane (List.append_eq_nil.mp hq).2),
    intercalate_append_ne hmne hane,
    intercalate_one, intercalate_one, intercalate_one,
    List.intercalate_splitOn, List.intercalate_splitOn]
  rw [canonFlow]
  simp [List.append_assoc]

/-- The protocol-log pipeline: on a well-formed `OFPT_FLOW_MOD … ADD` line
carrying the rule `(c, t, p, m, a)`, `extract_flow_from_ovs_logline` yields
the canonical string.  The hypotheses say: the fields contain no spaces,
the cookie and table fields contain no colon, and the ` ADD ` marker does
not occur before its separating occurrence. -/
theorem extract_ovs_canon
    (pre c t p m a : String)
    (hns_c : noSpace c.data = true) (hns_t : noSpace t.data = true)
    (hns_p : noSpace p.data = true) (hns_m : noSpace m.data = true)
    (hns_a : noSpace a.data = true)
    (hcol_c : noColon c.data = true) (hcol_t : noColon t.data = true)
    (hadd : occursIn " ADD ".data (pre.data ++ " ADD".data) = false) :
    extract_flow_from_ovs_logline (renderOvs pre c t p m a) =
      some (String.mk (canonFlow c t p m a)) := by
  have hmapc : ∀ s : List Char, noColon s = true →
      s.map (fun ch => if ch == ':' then '=' else ch) = s := by
    intro s hs
    apply map_eq_self_of_all
    intro ch hch
    have h := List.all_eq_true.mp hs ch hch
    rw [Bool.not_eq_true'] at h
    simp [h]
  have hL : (renderOvs pre c t p m a).data =
      pre.data ++ (" ADD ".data ++
        (("table:".data ++ t.data) ++ ' ' ::
          (("priority=".data ++ p.data ++ [','] ++ m.data) ++ ' ' ::
            (("cookie:0x".data ++ c.data) ++ ' ' ::
              ("actions=".data ++ a.data))))) := by
    simp only [renderOvs, String.data_append]
    simp [List.append_assoc]
  have hsp : pySplitOnce " ADD ".data (renderOvs pre c t p m a).data =
      some (pre.data,
        ("table:".data ++ t.data) ++ ' ' ::
          (("priority=".data ++ p.data ++ [','] ++ m.data) ++ ' ' ::
            (("cookie:0x".data ++ c.data) ++ ' ' ::
              ("actions=".data ++ a.data)))) := by
    rw [hL]
    refine pySplitOnce_append ?_
    rw [dropLast_append_lit (by decide),
      show ((" ADD ".data : List Char).dropLast) = " ADD".data from rfl]
    exact hadd
  have htok : (("table:".data ++ t.data) ++ ' ' ::
      (("priority=".data ++ p.data ++ [','] ++ m.data) ++ ' ' ::
        (("cookie:0x".data ++ c.data) ++ ' ' ::
          ("actions=".data ++ a.data)))).splitOn ' ' =
      [("table:".data ++ t.data),
        ("priority=".data ++ p.data ++ [','] ++ m.data),
        ("cookie:0x".data ++ c.data),
        ("actions=".data ++ a.data)] := by
    rw [splitOn_char_append, splitOn_char_append, splitOn_char_append]
    rw [@splitOn_char_single ' ' _
        (by simp only [List.all_append, Bool.and_eq_true]
            exact ⟨by decide, hns_t⟩),
      @splitOn_char_single ' ' _
        (by simp only [List.all_append, Bool.and_eq_true]
            exact ⟨⟨⟨by decide, hns_p⟩, by decide⟩, hns_m⟩),
      @splitOn_char_single ' ' _
        (by simp only [List.all_append, Bool.and_eq_true]
            exact ⟨by decide, hns_c⟩),
      @splitOn_char_single ' ' _
        (by simp only [List.all_append, Bool.and_eq_true]
            exact ⟨by decide, hns_a⟩)]
    rfl
  rw [extract_flow_from_ovs_logline, hsp]
  simp only [Option.bind_eq_bind', Option.some_bind', htok, List.get?_cons_zero,
    List.get?_cons_succ]
  rw [pyReplace_single_char, pyReplace_single_char]
  simp only [List.map_append]
  rw [hmapc _ hcol_c, hmapc _ hcol_t,
    show "cookie:0x".data.map (fun ch => if ch == ':' then '=' else ch) =
      "cookie=0x".data from rfl,
    show "table:".data.map (fun ch => if ch == ':' then '=' else ch) =
      "table=".data from rfl]
  rw [intercalate_two, intercalate_two, intercalate_two, intercalate_one]
  rw [canonFlow]
  simp [List.append_assoc]

/-- **C1.**  Cross-format equivalence of the three canonicalizers: a logical
rule `(c, t, p, m, a)` rendered in the three source formats — a controller
debug-log line with the `flow:` marker, a live `ovs-ofctl` dump line with
its volatile duration/n_packets/n_bytes/idle_age fields, and a protocol-log
line with the ` ADD ` marker — is canonicalized by
`extract_flow_from_logline`, `extract_flow_from_ofctl` and
`extract_flow_from_ovs_logline` to the byte-identical canonical string
`cookie=0x<c>,table=<t>,priority=<p>,<m>,actions=<a>`.  The hypotheses are
the well-formedness of the rendered lines: the fields contain no space, the
single-token fields contain no comma, the cookie and table fields contain
no colon, the actions text is nonempty without trailing whitespace, the
markers `flow:`, `table_id=`, `cookie=` and ` ADD ` occur only at their
separating positions, and the kept comma-tokens of the dump line are
nonempty and mention no volatile marker. -/
theorem c1_cross_format
    (pre1 pre2 c t p m a dur np nb ia : String)
    (hns_c : noSpace c.data = true) (hns_t : noSpace t.data = true)
    (hns_p : noSpace p.data = true) (hns_m : noSpace m.data = true)
    (hns_a : noSpace a.data = true)
    (hns_dur : noSpace dur.data = true) (hns_np : noSpace np.data = true)
    (hns_nb : noSpace nb.data = true) (hns_ia : noSpace ia.data = true)
    (hnc_c : noComma c.data = true) (hnc_t : noComma t.data = true)
    (hnc_p : noComma p.data = true) (hnc_dur : noComma dur.data = true)
    (hnc_np : noComma np.data = true) (hnc_nb : noComma nb.data = true)
    (hnc_ia : noComma ia.data = true)
    (hcol_c : noColon c.data = true) (hcol_t : noColon t.data = true)
    (ha_ne : a.data ≠ []) (ha_rs : pyRstrip a.data = a.data)
    (hpre : occursIn "flow:".data (pre1.data ++ "flow".data) = false)
    (hrest : occursIn "flow:".data
      (" cookie=".data ++ (c.data ++ (", table_id=".data ++ (t.data ++
        (", priority=".data ++ (p.data ++ (", ".data ++ (m.data ++
          (", actions=".data ++ a.data))))))))) = false)
    (htid1 : occursIn "table_id=".data
      ("cookie=".data ++ (c.data ++ ([','] ++ "table_id".data))) = false)
    (htid2 : occursIn "table_id=".data
      (t.data ++ (",priority=".data ++ (p.data ++ ([','] ++ (m.data ++
        (",actions=".data ++ a.data)))))) = false)
    (hck : occursIn "cookie=".data
      (c.data ++ ([','] ++ ("table=".data ++ (t.data ++ (",priority=".data ++
        (p.data ++ ([','] ++ (m.data ++ (",actions=".data ++ a.data))))))))) = false)
    (hb_c : isVolatile ("cookie=0x".data ++ c.data) = false)
    (hb_t : isVolatile ("table=".data ++ t.data) = false)
    (hb_p : isVolatile ("priority=".data ++ p.data) = false)
    (hm_toks : ∀ tok ∈ m.data.splitOn ',', tok ≠ [] ∧ isVolatile tok = false)
    (ha_toks : ∀ tok ∈ ("actions=".data ++ a.data).splitOn ',',
      tok ≠ [] ∧ isVolatile tok = false)
    (hadd : occursIn " ADD ".data (pre2.data ++ " ADD".data) = false) :
    extract_flow_from_logline (renderLog pre1 c t p m a) =
        some (String.mk (canonFlow c t p m a)) ∧
      extract_flow_from_ofctl (renderOfctl c t p m a dur np nb ia) =
        String.mk (canonFlow c t p m a) ∧
      extract_flow_from_ovs_logline (renderOvs pre2 c t p m a) =
        some (String.mk (canonFlow c t p m a)) :=
  ⟨extract_logline_canon pre1 c t p m a hns_c hns_t hns_p hns_m hns_a
      ha_ne ha_rs hpre hrest htid1 htid2 hck,
    extract_ofctl_canon c t p m a dur np nb ia hns_c hns_t hns_p hns_m hns_a
      hns_dur hns_np hns_nb hns_ia hnc_c hnc_t hnc_p hnc_dur hnc_np hnc_nb
      hnc_ia ha_ne ha_rs hb_c hb_t hb_p hm_toks ha_toks,
    extract_ovs_canon pre2 c t p m a hns_c hns_t hns_p hns_m hns_a
      hcol_c hcol_t hadd⟩

set_option maxRecDepth 1000000 in
/-- Witness for C1 at the rule from the module docstrings: the debug-log
line, the `ovs-ofctl` dump line and the `OFPT_FLOW_MOD` protocol line all
canonicalize to the same string. -/
theorem c1_cross_format_witness :
    extract_flow_from_logline (renderLog
        "2022-02-11T08:25:46.572Z|2419719|ofctrl|DBG|ofctrl_add_flow "
        "33d9a01c" "20" "100" "reg0=0xac10005b,reg15=0x3,metadata=0x144"
        "set_field:fa:16:3e:5b:d3:19->eth_dst,resubmit(,21)") =
        some (String.mk (canonFlow "33d9a01c" "20" "100"
          "reg0=0xac10005b,reg15=0x3,metadata=0x144"
          "set_field:fa:16:3e:5b:d3:19->eth_dst,resubmit(,21)")) ∧
      extract_flow_from_ofctl (renderOfctl "33d9a01c" "20" "100"
        "reg0=0xac10005b,reg15=0x3,metadata=0x144"
        "set_field:fa:16:3e:5b:d3:19->eth_dst,resubmit(,21)"
        "2962.254s" "0" "0" "2962") =
        String.mk (canonFlow "33d9a01c" "20" "100"
          "reg0=0xac10005b,reg15=0x3,metadata=0x144"
          "set_field:fa:16:3e:5b:d3:19->eth_dst,resubmit(,21)") ∧
      extract_flow_from_ovs_logline (renderOvs
        "2022-02-14T21:50:28.287Z|00356|vconn|DBG|unix#3: received: OFPT_FLOW_MOD (OF1.3) (xid=0x36c):"
        "33d9a01c" "20" "100" "reg0=0xac10005b,reg15=0x3,metadata=0x144"
        "set_field:fa:16:3e:5b:d3:19->eth_dst,resubmit(,21)") =
        some (String.mk (canonFlow "33d9a01c" "20" "100"
          "reg0=0xac10005b,reg15=0x3,metadata=0x144"
          "set_field:fa:16:3e:5b:d3:19->eth_dst,resubmit(,21)")) :=
  c1_cross_format
    "2022-02-11T08:25:46.572Z|2419719|ofctrl|DBG|ofctrl_add_flow "
    "2022-02-14T21:50:28.287Z|00356|vconn|DBG|unix#3: received: OFPT_FLOW_MOD (OF1.3) (xid=0x36c):"
    "33d9a01c" "20" "100" "reg0=0xac10005b,reg15=0x3,metadata=0x144"
    "set_field:fa:16:3e:5b:d3:19->eth_dst,resubmit(,21)"
    "2962.254s" "0" "0" "2962"
    (by decide) (by decide) (by decide) (by decide) (by decide)
    (by decide) (by decide) (by decide) (by decide)
    (by decide) (by decide) (by decide) (by decide)
    (by decide) (by decide) (by decide)
    (by decide) (by decide)
    (by decide) (by decide)
    (by decide)
    (by decide)
    (by decide)
    (by decide)
    (by decide)
    (by decide) (by decide) (by decide)
    (by decide)
    (by decide)
    (by decide)

end FlowHunter
